import Mathlib

/-
Verification of the ML-Karoprod cut/projection predictor
(`src/cut_predictor/Regressor1D.py`, `src/mesh_predictor/Regressor2D.py`,
and the reference scripts `Cut_web.py`, `Cut_x0_autotune.py`,
`Projection_2D.py`) against its natural-language specification.

The embedding is a shallow one.  Numeric values of the Python code (numpy
floats) are idealised as elements of a linear ordered field `K`
(instantiated at `ℚ` for executable witnesses and at `ℝ` where genuine
trigonometry is needed).  numpy matrices become `List (List K)` in row-major
layout; fallible operations return `Option`.  The transcendental kernels the
code applies pointwise (`np.cos`, `np.sin`, and the square root inside the
population standard deviation) are passed as explicit function parameters
`cosF sinF sqrtF : K → K`; the theorems that depend on their analytic
behaviour instantiate them at `Real.cos`, `Real.sin`.

The repository files `Predictor.py` (the shared base class) and `Utils.py`
(the `one_hot` helper) are not among the provided sources; the definitions
that stand in for them are marked `Modelled from the spec:` in their doc
comments and follow the specification text.
-/

set_option autoImplicit false

namespace KaroProd

/-- Attribute names, e.g. "Blechdicke", "c_phi". -/
abbrev Attr := String

/-- A numpy 2-d array in row-major layout. -/
abbrev Mat (K : Type) := List (List K)

variable {K : Type} [LinearOrderedField K]

/-- `np.linspace a b n`: `n` evenly spaced samples over `[a, b]`, endpoints
included.  For `n = 1` numpy returns `[a]`; the formula below yields exactly
that because Lean division by zero is zero, and for `n = 0` the list is
empty, also as in numpy. -/
def linspace (a b : K) (n : Nat) : List K :=
  (List.range n).map (fun (i : Nat) => a + (b - a) * (i : K) / ((n : K) - 1))

/-- Horizontal concatenation of two matrices with equally many rows
(`np.concatenate(-, axis=1)`). -/
def hstack (A B : Mat K) : Mat K :=
  List.zipWith (fun r s => r ++ s) A B

/-- `np.repeat(code, n, axis=0)` for a single row `code`. -/
def repeatRow (n : Nat) (row : List K) : Mat K :=
  List.replicate n row

/-- A constant column: `c * np.ones((n, 1))`. -/
def constColumn (n : Nat) (c : K) : Mat K :=
  List.replicate n [c]

/-- `xs.reshape((n, 1))`: a single column from a 1-d array. -/
def colFromList (xs : List K) : Mat K :=
  xs.map (fun v => [v])

/-- numpy row-major `xs.reshape((r, c))`; meaningful when `xs` has length
`r * c`, which the callers guarantee. -/
def reshape2 (xs : List K) (r c : Nat) : Mat K :=
  (List.range r).map (fun i => (List.range c).map (fun j => xs.getD (i * c + j) 0))

/-- Modelled from the spec: the helper `one_hot` is defined in the
repository's `Utils.py`, which is not among the provided sources.  Per the
spec (§4.2, §8) it produces, for a value in the registry's recorded value
list, a one-hot vector of width `|categorical_values[a]|` whose single `1.0`
sits at the recorded value's position, and fails with `UnknownCategoryError`
(here: `none`) for a value not among the recorded values — no silent
zero-vector fallback. -/
def one_hot (v : K) (values : List K) : Option (List K) :=
  if v ∈ values then
    some (values.map (fun u => if u = v then (1 : K) else 0))
  else
    none

/-- Sequence a fallible map over a list, failing when any element fails
(the effect of a numpy loop that may raise). -/
def seqMap {α β : Type} (f : α → Option β) : List α → Option (List β)
  | [] => some []
  | a :: tl => do
    let b ← f a
    let bs ← seqMap f tl
    pure (b :: bs)

/-- The per-predictor state: the attribute-name lists and the attribute
registry stored on `self` by `load_data`, the readiness flags
(`Regressor1D.py` lines 29–30), the external model handle (a row-wise
function, `None` while untrained), and the dataset arrays `self.X`,
`self.target` together with the per-row experiment ids.  Default values
give the freshly constructed predictor, whose `has_config` is false and
whose model is absent (spec §3: absence of the trained model is the valid
untrained state). -/
structure PredictorState (K : Type) [Zero K] [One K] where
  has_config : Bool := false
  data_loaded : Bool := false
  process_parameters : List Attr := []
  categorical_attributes : List Attr := []
  position_attributes : List Attr := []
  output_attributes : List Attr := []
  angle_input : Bool := false
  position_scaler : String := "normal"
  doe_id : Attr := "doe_id"
  mean_values : Attr → K := fun _ => 0
  std_values : Attr → K := fun _ => 1
  min_values : Attr → K := fun _ => 0
  max_values : Attr → K := fun _ => 0
  categorical_values : Attr → List K := fun _ => []
  model : Option (List K → List K) := none
  X : Mat K := []
  target : Mat K := []
  doe_ids : List Int := []
  doe_id_list : List Int := []

/-- The feature block contributed by one process parameter
(`Regressor1D.py` lines 79–92, `Regressor2D.py` lines 123–136): a one-hot
code for a categorical attribute, a single scaled scalar
`(v - mean) / std` otherwise. -/
def paramBlock (st : PredictorState K) (pp : Attr → K) (attr : Attr) :
    Option (List K) :=
  if attr ∈ st.categorical_attributes then
    one_hot (pp attr) (st.categorical_values attr)
  else
    some [(pp attr - st.mean_values attr) / st.std_values attr]

/-- All process-parameter blocks, concatenated in declaration order. -/
def paramsVec (st : PredictorState K) (pp : Attr → K) : Option (List K) :=
  (seqMap (paramBlock st pp) st.process_parameters).map List.flatten

/-- The feature block contributed by the 1-d position attribute at sampled
position `v` (`Regressor1D.py` lines 98–112): the scaled scalar in the
non-angular case, `[cos v, sin v]` when `angle_input` is set. -/
def posBlock1D (cosF sinF : K → K) (st : PredictorState K) (attr : Attr)
    (v : K) : List K :=
  if st.angle_input = false then
    [(v - st.mean_values attr) / st.std_values attr]
  else
    [cosF v, sinF v]

/-- Modelled from the spec: `_rescale_output` is defined in the missing
`Predictor.py` base class.  Per spec §4.3 output normalization is fixed to
`(x - mean) / std` and denormalization is its exact inverse, so the rescale
applied at `Regressor1D.py` line 117 is `mean + std * y` (the same inverse
convention the source itself uses for positions at line 142). -/
def rescale_output (st : PredictorState K) (attr : Attr) (y : K) : K :=
  st.mean_values attr + st.std_values attr * y

/-- The `(v - mean) / std` normalization applied to continuous inputs and
outputs (`Regressor1D.py` lines 90, 100; spec §4.3 fixes the same convention
for outputs). -/
def normalize_value (st : PredictorState K) (attr : Attr) (x : K) : K :=
  (x - st.mean_values attr) / st.std_values attr

/-- The per-output denormalization loop (`Regressor1D.py` lines 116–117,
`Regressor2D.py` lines 179–180, 194–195), applied to one row of the
normalized output matrix. -/
def rescaleRow (st : PredictorState K) (row : List K) : List K :=
  st.output_attributes.enum.map (fun ia => rescale_output st ia.2 (row.getD ia.1 0))

/- ------------------------------------------------------------------ -/
/- The 1D inference-time feature matrix (`Regressor1D.py` 77–112).    -/
/- ------------------------------------------------------------------ -/

/-- One iteration of the process-parameter loop of `predict`
(`Regressor1D.py` lines 79–92, `Regressor2D.py` lines 123–136): horizontally
concatenate the repeated one-hot code or the constant scaled column onto the
matrix built so far.  `n` is the number of rows (`positions` resp.
`nb_points`). -/
def paramStep (st : PredictorState K) (pp : Attr → K) (n : Nat) (X : Mat K)
    (attr : Attr) : Option (Mat K) :=
  if attr ∈ st.categorical_attributes then do
    let code ← one_hot (pp attr) (st.categorical_values attr)
    pure (hstack X (repeatRow n code))
  else
    pure (hstack X (constColumn n
      ((pp attr - st.mean_values attr) / st.std_values attr)))

/-- One iteration of the 1D position loop of `predict` (`Regressor1D.py`
lines 95–112): sample the position attribute with `np.linspace` over its
recorded range and append the scaled column, or the cosine and sine columns
in angular mode. -/
def posStep1D (cosF sinF : K → K) (st : PredictorState K) (n : Nat)
    (X : Mat K) (attr : Attr) : Mat K :=
  if st.angle_input = false then
    hstack X (colFromList ((linspace (st.min_values attr)
      (st.max_values attr) n).map
      (fun v => (v - st.mean_values attr) / st.std_values attr)))
  else
    hstack (hstack X (colFromList ((linspace (st.min_values attr)
        (st.max_values attr) n).map cosF)))
      (colFromList ((linspace (st.min_values attr)
        (st.max_values attr) n).map sinF))

/-- The full inference-time feature matrix of the 1D `predict`
(`Regressor1D.py` lines 77–112): starting from `np.empty((positions, 0))`,
all process-parameter blocks in declaration order, then the position
attribute(s) last. -/
def predictX1D (cosF sinF : K → K) (st : PredictorState K) (pp : Attr → K)
    (n : Nat) : Option (Mat K) := do
  let base ← st.process_parameters.foldlM (paramStep st pp n)
    (List.replicate n ([] : List K))
  pure (st.position_attributes.foldl (posStep1D cosF sinF st n) base)

/-- The `i`-th `np.linspace` sample of a 1D position attribute. -/
def posSample1D (st : PredictorState K) (attr : Attr) (n i : Nat) : K :=
  st.min_values attr +
    (st.max_values attr - st.min_values attr) * (i : K) / ((n : K) - 1)

/-- The position portion of the `i`-th row of the 1D inference feature
matrix: one block per position attribute, in declaration order. -/
def posPart1D (cosF sinF : K → K) (st : PredictorState K) (n i : Nat) :
    List K :=
  (st.position_attributes.map (fun attr =>
    posBlock1D cosF sinF st attr (posSample1D st attr n i))).flatten

/- ------------------------------------------------------------------ -/
/- The 2D inference-time feature matrix (`Regressor2D.py` 102–145).   -/
/- ------------------------------------------------------------------ -/

/-- The scaling applied to a 2D position coordinate (`Regressor2D.py`
lines 140–143): `(v - mean)/std` in `normal` mode, `(v - min)/(max - min)`
in `minmax` mode. -/
def posScale2D (st : PredictorState K) (attr : Attr) (v : K) : K :=
  if st.position_scaler = "normal" then
    (v - st.mean_values attr) / st.std_values attr
  else
    (v - st.min_values attr) / (st.max_values attr - st.min_values attr)

/-- One iteration of the 2D position loop of `predict` (`Regressor2D.py`
lines 139–145): append the scaled `i`-th sample coordinate as one column. -/
def posStep2D (st : PredictorState K) (samples : Mat K) (X : Mat K)
    (ia : Nat × Attr) : Mat K :=
  hstack X (colFromList (samples.map
    (fun r => posScale2D st ia.2 (r.getD ia.1 0))))

/-- The position portion of the feature row encoded from one 2D sample
row `r`. -/
def posPart2D (st : PredictorState K) (r : List K) : List K :=
  st.position_attributes.enum.map (fun ia => posScale2D st ia.2 (r.getD ia.1 0))

/-- The full inference-time feature matrix of the 2D `predict`
(`Regressor2D.py` lines 121–145): all process-parameter blocks in
declaration order, then the two scaled position columns last. -/
def predictX2D (st : PredictorState K) (pp : Attr → K) (samples : Mat K) :
    Option (Mat K) := do
  let base ← st.process_parameters.foldlM (paramStep st pp samples.length)
    (List.replicate samples.length ([] : List K))
  pure (st.position_attributes.enum.foldl (posStep2D st samples) base)

/-- The 2D sample grid (`Regressor2D.py` lines 106–109):
`np.array([[i, j] for i in x for j in y])` with `x`, `y` the `np.linspace`
samples of the two position attributes over their recorded ranges. -/
def gridSamples (st : PredictorState K) (cu cv : Nat) : Mat K :=
  let x := linspace (st.min_values (st.position_attributes.getD 0 ""))
    (st.max_values (st.position_attributes.getD 0 "")) cu
  let y := linspace (st.min_values (st.position_attributes.getD 1 ""))
    (st.max_values (st.position_attributes.getD 1 "")) cv
  (x.map (fun i => y.map (fun j => [i, j]))).flatten

/-- The `positions` argument of the 2D `predict`: either a `(countU,
countV)` grid request or an explicit `(N, 2)` coordinate array. -/
inductive Pos2D (K : Type) where
  | grid (cu cv : Nat)
  | coords (a : Mat K)

/-- The shared tail of the 2D `predict` (`Regressor2D.py` lines 121–151):
encode the samples, predict, denormalize each output column and reshape it
to `shape`. -/
def predictCore2D (st : PredictorState K) (pp : Attr → K)
    (m : List K → List K) (samples : Mat K) (shape : Nat × Nat) :
    Option (Mat K × List (Mat K)) := do
  let X ← predictX2D st pp samples
  pure (samples, st.output_attributes.enum.map (fun ia =>
    reshape2 (X.map (fun row => rescale_output st ia.2 ((m row).getD ia.1 0)))
      shape.1 shape.2))

/-- `ProjectionPredictor.predict` (`Regressor2D.py` lines 66–151), up to the
raw-array return: the readiness guards, the grid or explicit-array sample
generation (with the `(N, 2)` shape check of lines 113–117), encoding,
prediction and per-output denormalized reshape. -/
def predict2D (st : PredictorState K) (pp : Attr → K) (positions : Pos2D K) :
    Option (Mat K × List (Mat K)) :=
  if st.has_config = false then none
  else
    match st.model with
    | none => none
    | some m =>
      match positions with
      | Pos2D.grid cu cv => predictCore2D st pp m (gridSamples st cu cv) (cu, cv)
      | Pos2D.coords a =>
        if a.all (fun r => r.length = 2) then
          predictCore2D st pp m a (a.length, 1)
        else none

/- ------------------------------------------------------------------ -/
/- The pandas table result of the 2D predict (`Regressor2D.py`        -/
/- 154–160).                                                          -/
/- ------------------------------------------------------------------ -/

/-- A pandas DataFrame: a row count and named columns. -/
structure DF (K : Type) where
  nrows : Nat
  cols : List (Attr × List K)

/-- `pd.DataFrame()`. -/
def dfEmpty (K : Type) : DF K := ⟨0, []⟩

/-- Modelled pandas semantics of `d[attr] = v` for a 1-d value: on a
non-empty frame the value's length must match the frame's row count
(`ValueError` otherwise); assigning to an empty frame sets the row count. -/
def dfSetCol (df : DF K) (name : Attr) (v : List K) : Option (DF K) :=
  if df.cols.isEmpty ∨ v.length = df.nrows then
    some ⟨if df.cols.isEmpty then v.length else df.nrows,
      df.cols ++ [(name, v)]⟩
  else
    none

/-- Modelled pandas semantics of `d[attr] = v` for a 2-d ndarray value: the
value's length (its number of rows) must match the frame's row count, and a
2-d value is accepted as a single column only when its second dimension is
1, in which case it is stored squeezed; otherwise the assignment raises. -/
def dfSetColMat (df : DF K) (name : Attr) (v : Mat K) : Option (DF K) :=
  if ((df.cols.isEmpty ∨ v.length = df.nrows) ∧
      ∀ r ∈ v, r.length = 1) then
    some ⟨if df.cols.isEmpty then v.length else df.nrows,
      df.cols ++ [(name, v.map (fun r => r.headD 0))]⟩
  else
    none

/-- The `as_df` branch of the 2D `predict` (`Regressor2D.py` lines
154–160): one column per position attribute from the sample coordinates,
then one column per output attribute from the reshaped result. -/
def buildDF2D (st : PredictorState K) (samples : Mat K)
    (result : List (Mat K)) : Option (DF K) := do
  let d1 ← st.position_attributes.enum.foldlM
    (fun df ia => dfSetCol df ia.2 (samples.map (fun r => r.getD ia.1 0)))
    (dfEmpty K)
  st.output_attributes.enum.foldlM
    (fun df ia => dfSetColMat df ia.2 (result.getD ia.1 [])) d1

/-- The 2D `predict` with `as_df=True` (`Regressor2D.py` lines 66–160). -/
def predictDF2D (st : PredictorState K) (pp : Attr → K)
    (positions : Pos2D K) : Option (DF K) := do
  let sr ← predict2D st pp positions
  buildDF2D st sr.1 sr.2

/- ------------------------------------------------------------------ -/
/- The dataset builder (`load_data`, spec §4.1/§4.4; the registry and -/
/- array construction live in the missing `Predictor.py`).            -/
/- ------------------------------------------------------------------ -/

/-- One design-table row: the experiment id and the process-parameter
values by attribute name. -/
structure DoeRow (K : Type) where
  id : Int
  val : Attr → K

/-- One observation-table row: the owning experiment id and the position
and output values by attribute name. -/
structure ObsRow (K : Type) where
  id : Int
  val : Attr → K

/-- Look up the design row owning an experiment id. -/
def doeLookup (doe : List (DoeRow K)) (i : Int) : Option (DoeRow K) :=
  doe.find? (fun d => d.id == i)

/-- Modelled from the spec (§4.4): expansion of the process parameters onto
every observation row by `doe_id` join; fails (`MissingDesignRowError`,
here `none`) when an observation row references an absent design row. -/
def expandRows (doe : List (DoeRow K)) (data : List (ObsRow K)) :
    Option (List (DoeRow K × ObsRow K)) :=
  seqMap (fun r => (doeLookup doe r.id).map (fun d => (d, r))) data

/-- Arithmetic mean of a column (spec §4.1). -/
def meanOf (xs : List K) : K := xs.sum / (xs.length : K)

/-- Population variance of a column (spec §4.1). -/
def varianceOf (xs : List K) : K :=
  (xs.map (fun x => (x - meanOf xs) ^ 2)).sum / (xs.length : K)

/-- Modelled from the spec (§4.1): the population standard deviation of a
column; the square-root kernel is the explicit parameter `sqrtF`
(`Real.sqrt` at `K = ℝ`). -/
def stdOf (sqrtF : K → K) (xs : List K) : K := sqrtF (varianceOf xs)

/-- Minimum of a column. -/
def minOf (xs : List K) : K := xs.foldl min (xs.headD 0)

/-- Maximum of a column. -/
def maxOf (xs : List K) : K := xs.foldl max (xs.headD 0)

/-- Modelled from the spec (§4.1): the distinct values of a column, ordered
by first appearance — the recorded one-hot ordering. -/
def firstAppearances {α : Type} [DecidableEq α] (xs : List α) : List α :=
  xs.foldl (fun acc x => if x ∈ acc then acc else acc ++ [x]) []

/-- The column of a process attribute over the expanded rows. -/
def expandedCol (exp : List (DoeRow K × ObsRow K)) (attr : Attr) : List K :=
  exp.map (fun dr => dr.1.val attr)

/-- The column of a position/output attribute over the observation table. -/
def obsCol (data : List (ObsRow K)) (attr : Attr) : List K :=
  data.map (fun r => r.val attr)

/-- The configured state after `CutPredictor.load_data` has stored the
attribute names and flags (`Regressor1D.py` lines 29–47) and — modelled
from the spec (§4.1), since `_preprocess_parameters` and
`_preprocess_variables` live in the missing `Predictor.py` — built the
attribute registry: mean/std (population, via `sqrtF`) and min/max over the
expanded rows for process attributes and over the observation table for
position/output attributes, and the categorical value sets ordered by
first appearance over the design-table column. -/
def configure1D (sqrtF : K → K) (st : PredictorState K)
    (doe : List (DoeRow K)) (data : List (ObsRow K))
    (process_parameters : List Attr) (position : Attr) (output : List Attr)
    (categorical : List Attr) (angle : Bool) (index : Attr)
    (exp : List (DoeRow K × ObsRow K)) : PredictorState K :=
  { st with
    has_config := true
    data_loaded := true
    process_parameters := process_parameters
    position_attributes := [position]
    output_attributes := output
    categorical_attributes := categorical
    angle_input := angle
    doe_id := index
    mean_values := fun attr =>
      if attr = position ∨ attr ∈ output then meanOf (obsCol data attr)
      else meanOf (expandedCol exp attr)
    std_values := fun attr =>
      if attr = position ∨ attr ∈ output then stdOf sqrtF (obsCol data attr)
      else stdOf sqrtF (expandedCol exp attr)
    min_values := fun attr =>
      if attr = position ∨ attr ∈ output then minOf (obsCol data attr)
      else minOf (expandedCol exp attr)
    max_values := fun attr =>
      if attr = position ∨ attr ∈ output then maxOf (obsCol data attr)
      else maxOf (expandedCol exp attr)
    categorical_values := fun attr =>
      firstAppearances (doe.map (fun d => d.val attr)) }

/-- Modelled from the spec (§2, §4.2, §4.4): one encoded training row,
built by the same shared Feature Encoder as inference — the
process-parameter blocks in declaration order, then the position block(s)
at the row's own position value(s). -/
def trainRow (cosF sinF : K → K) (st : PredictorState K) (d : DoeRow K)
    (r : ObsRow K) : Option (List K) :=
  (paramsVec st d.val).map (fun P =>
    P ++ (st.position_attributes.map (fun attr =>
      posBlock1D cosF sinF st attr (r.val attr))).flatten)

/-- Modelled from the spec (§4.4): store the encoded feature matrix, the
normalized target matrix (each output independently normalized), the list
of distinct experiment ids, and the per-row experiment ids. -/
def storeArrays (st : PredictorState K) (Xrows : Mat K)
    (data : List (ObsRow K)) : PredictorState K :=
  { st with
    X := Xrows
    target := data.map (fun r =>
      st.output_attributes.map (fun o => normalize_value st o (r.val o)))
    doe_ids := firstAppearances (data.map (fun r => r.id))
    doe_id_list := data.map (fun r => r.id) }

/-- `CutPredictor.load_data` (`Regressor1D.py` lines 15–56): stores the
attribute names and readiness flags (source lines 29–47), then — modelled
from the spec, since the source delegates to `_preprocess_parameters`,
`_preprocess_variables` and `_make_arrays` of the missing `Predictor.py` —
joins the tables, builds the registry and builds the dataset arrays. -/
def load_data1D (cosF sinF sqrtF : K → K) (st : PredictorState K)
    (doe : List (DoeRow K)) (data : List (ObsRow K))
    (process_parameters : List Attr) (position : Attr) (output : List Attr)
    (categorical : List Attr) (angle : Bool) (index : Attr) :
    Option (PredictorState K) := do
  let exp ← expandRows doe data
  let st1 := configure1D sqrtF st doe data process_parameters position
    output categorical angle index exp
  let Xrows ← seqMap (fun dr => trainRow cosF sinF st1 dr.1 dr.2) exp
  pure (storeArrays st1 Xrows data)

/-- Modelled from the spec (§3 lifecycle, §4.5): training or loading a
model replaces the predictor's model handle and changes nothing else. -/
def train (st : PredictorState K) (m : List K → List K) : PredictorState K :=
  { st with model := some m }

/-- `CutPredictor.predict` (`Regressor1D.py` lines 60–119): the
not-ready guards (lines 69–75), the feature matrix, the model call with the
per-output denormalization, and the returned `(position, y)` pair — the
`position` variable being the linspace of the last position attribute, as
left behind by the loop of line 95. -/
def predict1D (cosF sinF : K → K) (st : PredictorState K) (pp : Attr → K)
    (n : Nat) : Option (List K × Mat K) :=
  if st.has_config = false then none
  else
    match st.model with
    | none => none
    | some m =>
      (predictX1D cosF sinF st pp n).map (fun X =>
        (st.position_attributes.foldl
          (fun _ attr => linspace (st.min_values attr) (st.max_values attr) n)
          [],
         X.map (fun row => rescaleRow st (m row))))

/-- The method-call view of `predict`: the source body never assigns any
attribute of `self`, so the post-call state is the receiver unchanged. -/
def predict1D_method (cosF sinF : K → K) (st : PredictorState K)
    (pp : Attr → K) (n : Nat) :
    PredictorState K × Option (List K × Mat K) :=
  (st, predict1D cosF sinF st pp n)

/-- Row selection by an index array — numpy "fancy" indexing
(`self.X[indices]`, `Regressor1D.py` line 135), which copies. -/
def selIdx (A : Mat K) (idx : List Nat) : Mat K :=
  idx.map (fun i => A.getD i [])

/-- `CutPredictor._compare` (`Regressor1D.py` lines 122–147) without the
plotting tail: the not-ready and unknown-experiment guards, the selection
of the experiment's rows, the denormalized ground truth and the
denormalized prediction. -/
def compare1D (st : PredictorState K) (d : Int) :
    Option (Mat K × Mat K) :=
  match st.model with
  | none => none
  | some m =>
    if d ∈ st.doe_ids then
      let indices := (st.doe_id_list.enum.filter
        (fun p => p.2 == d)).map Prod.fst
      let t := (selIdx st.target indices).map (rescaleRow st)
      let y := (selIdx st.X indices).map (fun row => rescaleRow st (m row))
      some (t, y)
    else none

/-- The load → train → predict sequence of the recovery half of the
untrained-state-safety property (spec §8), starting from the freshly
constructed predictor. -/
def loadTrainPredict (cosF sinF sqrtF : K → K) (doe : List (DoeRow K))
    (data : List (ObsRow K)) (process_parameters : List Attr)
    (position : Attr) (output : List Attr) (categorical : List Attr)
    (angle : Bool) (index : Attr) (m : List K → List K) (pp : Attr → K)
    (n : Nat) : Option (List K × Mat K) := do
  let st1 ← load_data1D cosF sinF sqrtF {} doe data process_parameters
    position output categorical angle index
  predict1D cosF sinF (train st1 m) pp n

/- ------------------------------------------------------------------ -/
/- The validation split (spec §4.4).                                  -/
/- ------------------------------------------------------------------ -/

/-- Modelled from the spec: the `leaveoneout` validation policy of the
dataset builder (`_make_arrays` in the missing `Predictor.py` base class).
Per spec §4.4 one entire experiment (`doe_id`) is withheld as the validation
set and all its observation rows are removed from training — a
full-experiment holdout, never a row-level sample.  `rows` are the encoded
dataset rows (the rows of the feature/target matrices) and `idOf` extracts
the owning `doe_id` of a row. -/
def leaveOneOutSplit {R : Type} (rows : List R) (idOf : R → Int) (x : Int) :
    List R × List R :=
  (rows.filter (fun r => idOf r ≠ x), rows.filter (fun r => idOf r = x))

/- ------------------------------------------------------------------ -/
/- The reference scripts' load_data call (C8).                        -/
/- ------------------------------------------------------------------ -/

/-- The parameter names accepted by `CutPredictor.load_data` as declared in
`src/cut_predictor/Regressor1D.py` line 15 (`self` excluded). -/
def load_data_1d_sig : List String :=
  ["doe", "data", "process_parameters", "position", "output", "categorical",
   "angle", "index"]

/-- The keyword arguments passed to `reg.load_data` by the reference
scripts `Cut_web.py` (lines 17–38) and `Cut_x0_autotune.py` (lines 14–35). -/
def cut_script_kwargs : List String :=
  ["doe", "data", "index", "process_parameters", "categorical", "position",
   "output", "validation_split", "validation_method", "position_scaler"]

/-- Python keyword-call semantics: a keyword call binds exactly when every
keyword names a declared parameter; otherwise the call raises `TypeError`
(unexpected keyword argument) before the function body runs. -/
def kwargsBind (declared kwargs : List String) : Bool :=
  kwargs.all (fun k => declared.contains k)

/- ------------------------------------------------------------------ -/
/- Widths (spec §3, §8: the feature width invariant).                 -/
/- ------------------------------------------------------------------ -/

/-- The declared feature width of the spec (§3, §8): the count of
continuous process attributes, plus the sum of the one-hot widths, plus the
position width. -/
def featureWidthFormula (st : PredictorState K) (posWidth : Nat) : Nat :=
  (st.process_parameters.filter
    (fun a => a ∉ st.categorical_attributes)).length +
  ((st.process_parameters.filter (fun a => a ∈ st.categorical_attributes)).map
    (fun a => (st.categorical_values a).length)).sum +
  posWidth

/-- The declared 1D position width: 1 per position attribute, doubled in
angular mode. -/
def posWidth1D (st : PredictorState K) : Nat :=
  if st.angle_input then 2 * st.position_attributes.length
  else st.position_attributes.length

/-- The declared 2D position width: 1 per position attribute. -/
def posWidth2D (st : PredictorState K) : Nat :=
  st.position_attributes.length

/- ------------------------------------------------------------------ -/
/- The buffer-level view of `_compare` / `compare_xyz` (C10).         -/
/- ------------------------------------------------------------------ -/

/-- A heap of numpy array buffers; references are indices.  This models
which numpy operations create fresh buffers and which write in place:
boolean-mask and index-array selection copy, `t[:, idx] = ...` writes its
receiver's buffer. -/
structure Heap (K : Type) where
  bufs : List (Mat K)

/-- Read the matrix stored in a buffer. -/
def Heap.read (h : Heap K) (r : Nat) : Mat K := h.bufs.getD r []

/-- Allocate a fresh buffer holding `m`; returns the new heap and the new
reference. -/
def Heap.alloc (h : Heap K) (m : Mat K) : Heap K × Nat :=
  (⟨h.bufs ++ [m]⟩, h.bufs.length)

/-- Overwrite the buffer behind reference `r` in place. -/
def Heap.write (h : Heap K) (r : Nat) (m : Mat K) : Heap K :=
  ⟨h.bufs.set r m⟩

/-- Row selection by boolean mask (`self.X[self.doe_id_list == doe_id, :]`,
`Regressor2D.py` lines 176–177, 232–233) — numpy advanced indexing, which
allocates a fresh buffer. -/
def maskSelect (A : Mat K) (mask : List Bool) : Mat K :=
  ((A.zip mask).filter (fun p => p.2)).map Prod.fst

/-- `t[:, idx] = f(t[:, idx])` — an in-place column update. -/
def setColMap (A : Mat K) (idx : Nat) (f : K → K) : Mat K :=
  A.map (fun row => row.set idx (f (row.getD idx 0)))

/-- The array operations of `ProjectionPredictor._compare`
(`Regressor2D.py` lines 176–195) and, identically, of `compare_xyz`
(lines 232–251), at buffer level: mask-select copies of `self.X` (at `rX`)
and `self.target` (at `rT`), in-place denormalization of the ground-truth
copy column by column, the model prediction into a fresh buffer, and its
in-place denormalization.  Returns the final heap and the references of
the selected-X, ground-truth and prediction buffers. -/
def compareBufOps (h : Heap K) (rX rT : Nat) (mask : List Bool)
    (st : PredictorState K) (m : List K → List K) :
    Heap K × Nat × Nat × Nat :=
  let p1 := h.alloc (maskSelect (h.read rX) mask)
  let p2 := p1.1.alloc (maskSelect (p1.1.read rT) mask)
  let h3 := st.output_attributes.enum.foldl
    (fun hh ia => hh.write p2.2
      (setColMap (hh.read p2.2) ia.1 (rescale_output st ia.2))) p2.1
  let p4 := h3.alloc ((h3.read p1.2).map m)
  let h5 := st.output_attributes.enum.foldl
    (fun hh ia => hh.write p4.2
      (setColMap (hh.read p4.2) ia.1 (rescale_output st ia.2))) p4.1
  (h5, p1.2, p2.2, p4.2)

/-- The array operations of `CutPredictor._compare` (`Regressor1D.py`
lines 132–147) at buffer level: index-array (fancy-indexing) copies of
`self.X` and `self.target`, in-place denormalization of the ground-truth
copy, the model prediction into a fresh buffer, and its in-place
denormalization. -/
def compareBufOps1D (h : Heap K) (rX rT : Nat) (indices : List Nat)
    (st : PredictorState K) (m : List K → List K) :
    Heap K × Nat × Nat × Nat :=
  let p1 := h.alloc (selIdx (h.read rX) indices)
  let p2 := p1.1.alloc (selIdx (p1.1.read rT) indices)
  let h3 := st.output_attributes.enum.foldl
    (fun hh ia => hh.write p2.2
      (setColMap (hh.read p2.2) ia.1 (rescale_output st ia.2))) p2.1
  let p4 := h3.alloc ((h3.read p1.2).map m)
  let h5 := st.output_attributes.enum.foldl
    (fun hh ia => hh.write p4.2
      (setColMap (hh.read p4.2) ia.1 (rescale_output st ia.2))) p4.1
  (h5, p1.2, p2.2, p4.2)

end KaroProd

namespace KaroProd

variable {K : Type} [LinearOrderedField K]

/- ------------------------------------------------------------------ -/
/- Bridging lemmas: the column-blockwise matrix construction of the   -/
/- source equals a row-wise normal form.                              -/
/- ------------------------------------------------------------------ -/

theorem one_hot_length (v : K) (values : List K) (l : List K)
    (h : one_hot v values = some l) : l.length = values.length := by
  unfold one_hot at h
  by_cases hv : v ∈ values
  · simp only [if_pos hv, Option.some.injEq] at h
    rw [← h, List.length_map]
  · simp [hv] at h

theorem replicate_eq_map {α β : Type} (l : List α) (b : β) :
    List.replicate l.length b = l.map (fun _ => b) := by
  induction l with
  | nil => rfl
  | cons a tl ih => simp only [List.length_cons, List.replicate_succ,
      List.map_cons, ih]

theorem hstack_map_map {α : Type} (l : List α) (f g : α → List K) :
    hstack (l.map f) (l.map g) = l.map (fun x => f x ++ g x) := by
  induction l with
  | nil => rfl
  | cons a tl ih =>
    simp only [List.map_cons, hstack, List.zipWith_cons_cons]
    exact congrArg _ ih

theorem paramStep_eq (st : PredictorState K) (pp : Attr → K) (n : Nat)
    (X : Mat K) (attr : Attr) :
    paramStep st pp n X attr =
      (paramBlock st pp attr).map (fun b => hstack X (repeatRow n b)) := by
  unfold paramStep paramBlock
  by_cases hc : attr ∈ st.categorical_attributes
  · simp only [if_pos hc]
    cases one_hot (pp attr) (st.categorical_values attr) <;> rfl
  · simp only [if_neg hc, Option.map_some]
    rfl

theorem paramFold_norm {α : Type} (st : PredictorState K) (pp : Attr → K)
    (n : Nat) (l : List α) (hl : l.length = n) (as : List Attr)
    (f : α → List K) :
    List.foldlM (paramStep st pp n) (l.map f) as =
      (seqMap (paramBlock st pp) as).map
        (fun Bs => l.map (fun x => f x ++ Bs.flatten)) := by
  induction as generalizing f with
  | nil => simp [seqMap]
  | cons a tl ih =>
    cases hb : paramBlock st pp a with
    | none => simp [List.foldlM_cons, paramStep_eq, hb, seqMap]
    | some b =>
      have hrep : hstack (l.map f) (repeatRow n b) =
          l.map (fun x => f x ++ b) := by
        show hstack (l.map f) (List.replicate n b) = _
        rw [← hl, replicate_eq_map, hstack_map_map]
      have hstep : paramStep st pp n (l.map f) a =
          some (l.map (fun x => f x ++ b)) := by
        rw [paramStep_eq, hb]
        simp [hrep]
      rw [List.foldlM_cons, hstep]
      show List.foldlM (paramStep st pp n)
        (l.map (fun x => f x ++ b)) tl = _
      rw [ih (fun x => f x ++ b)]
      cases hm : seqMap (paramBlock st pp) tl with
      | none => simp [seqMap, hb, hm]
      | some Bs => simp [seqMap, hb, hm, List.append_assoc]

theorem colFromList_map {α : Type} (l : List α) (g : α → K) :
    colFromList (l.map g) = l.map (fun x => [g x]) := by
  unfold colFromList
  rw [List.map_map]
  rfl

theorem posStep1D_norm (cosF sinF : K → K) (st : PredictorState K) (n : Nat)
    (f : Nat → List K) (attr : Attr) :
    posStep1D cosF sinF st n ((List.range n).map f) attr =
      (List.range n).map (fun i => f i ++
        posBlock1D cosF sinF st attr (posSample1D st attr n i)) := by
  have hlin : linspace (st.min_values attr) (st.max_values attr) n =
      (List.range n).map (fun i : Nat => posSample1D st attr n i) := by
    unfold linspace posSample1D
    rfl
  unfold posStep1D
  rw [hlin]
  cases hang : st.angle_input with
  | false =>
    rw [if_pos rfl, List.map_map, colFromList_map, hstack_map_map]
    refine congrArg (fun F => List.map F (List.range n)) ?_
    funext i
    rw [posBlock1D, hang, if_pos rfl]
    rfl
  | true =>
    rw [if_neg (by simp), List.map_map, List.map_map,
      colFromList_map, colFromList_map, hstack_map_map, hstack_map_map]
    refine congrArg (fun F => List.map F (List.range n)) ?_
    funext i
    rw [posBlock1D, hang, if_neg (by simp)]
    simp [Function.comp, List.append_assoc]

theorem posFold1D_norm (cosF sinF : K → K) (st : PredictorState K) (n : Nat)
    (as : List Attr) (f : Nat → List K) :
    as.foldl (posStep1D cosF sinF st n) ((List.range n).map f) =
      (List.range n).map (fun i => f i ++ (as.map (fun attr =>
        posBlock1D cosF sinF st attr (posSample1D st attr n i))).flatten) := by
  induction as generalizing f with
  | nil => simp
  | cons a tl ih =>
    rw [List.foldl_cons, posStep1D_norm,
      ih (fun i => f i ++ posBlock1D cosF sinF st a (posSample1D st a n i))]
    simp [List.append_assoc]

theorem predictX1D_norm (cosF sinF : K → K) (st : PredictorState K)
    (pp : Attr → K) (n : Nat) :
    predictX1D cosF sinF st pp n = (paramsVec st pp).map
      (fun P => (List.range n).map
        (fun i => P ++ posPart1D cosF sinF st n i)) := by
  unfold predictX1D paramsVec
  have h0 : (List.replicate n ([] : List K)) =
      (List.range n).map (fun _ => []) := by
    have h1 := replicate_eq_map (List.range n) ([] : List K)
    rwa [List.length_range] at h1
  rw [h0, paramFold_norm st pp n (List.range n) (List.length_range n)
    st.process_parameters (fun _ => [])]
  cases hm : seqMap (paramBlock st pp) st.process_parameters with
  | none => rfl
  | some Bs =>
    show some (List.foldl (posStep1D cosF sinF st n)
      ((List.range n).map (fun _ => ([] : List K) ++ Bs.flatten))
      st.position_attributes) = some ((List.range n).map
      (fun i => Bs.flatten ++ posPart1D cosF sinF st n i))
    rw [show ((List.range n).map (fun _ => ([] : List K) ++ Bs.flatten)) =
        (List.range n).map (fun _ => Bs.flatten) by simp]
    exact congrArg some (posFold1D_norm cosF sinF st n
      st.position_attributes (fun _ => Bs.flatten))

theorem posStep2D_norm (st : PredictorState K) (samples : Mat K)
    (f : List K → List K) (ia : Nat × Attr) :
    posStep2D st samples (samples.map f) ia =
      samples.map (fun r => f r ++ [posScale2D st ia.2 (r.getD ia.1 0)]) := by
  unfold posStep2D colFromList
  rw [List.map_map, hstack_map_map]
  rfl

theorem posFold2D_norm (st : PredictorState K) (samples : Mat K)
    (es : List (Nat × Attr)) (f : List K → List K) :
    es.foldl (posStep2D st samples) (samples.map f) =
      samples.map (fun r =>
        f r ++ es.map (fun ia => posScale2D st ia.2 (r.getD ia.1 0))) := by
  induction es generalizing f with
  | nil => simp
  | cons e tl ih =>
    rw [List.foldl_cons, posStep2D_norm,
      ih (fun r => f r ++ [posScale2D st e.2 (r.getD e.1 0)])]
    simp [List.append_assoc]

theorem predictX2D_norm (st : PredictorState K) (pp : Attr → K)
    (samples : Mat K) :
    predictX2D st pp samples = (paramsVec st pp).map
      (fun P => samples.map (fun r => P ++ posPart2D st r)) := by
  unfold predictX2D paramsVec
  have h0 : (List.replicate samples.length ([] : List K)) =
      samples.map (fun _ => []) := replicate_eq_map samples []
  rw [h0, paramFold_norm st pp samples.length samples rfl
    st.process_parameters (fun _ => [])]
  cases hm : seqMap (paramBlock st pp) st.process_parameters with
  | none => rfl
  | some Bs =>
    show some (List.foldl (posStep2D st samples)
      (samples.map (fun _ => ([] : List K) ++ Bs.flatten))
      st.position_attributes.enum) = some (samples.map
      (fun r => Bs.flatten ++ posPart2D st r))
    rw [show (samples.map (fun _ => ([] : List K) ++ Bs.flatten)) =
        samples.map (fun _ => Bs.flatten) by simp]
    exact congrArg some (posFold2D_norm st samples
      st.position_attributes.enum (fun _ => Bs.flatten))

/- Width lemmas. -/

theorem paramsBlocks_length (st : PredictorState K) (pp : Attr → K)
    (as : List Attr) (Bs : List (List K))
    (h : seqMap (paramBlock st pp) as = some Bs) :
    Bs.flatten.length =
      (as.filter (fun a => a ∉ st.categorical_attributes)).length +
      ((as.filter (fun a => a ∈ st.categorical_attributes)).map
        (fun a => (st.categorical_values a).length)).sum := by
  induction as generalizing Bs with
  | nil =>
    simp only [seqMap, Option.some.injEq] at h
    subst h
    simp
  | cons a tl ih =>
    simp only [seqMap] at h
    cases hb : paramBlock st pp a with
    | none => simp [hb] at h
    | some b =>
      cases hm : seqMap (paramBlock st pp) tl with
      | none => simp [hb, hm] at h
      | some Bs2 =>
        rw [hb, hm] at h
        have hBs : b :: Bs2 = Bs := Option.some.inj h
        subst hBs
        have htl := ih Bs2 hm
        by_cases hc : a ∈ st.categorical_attributes
        · have hlen : b.length = (st.categorical_values a).length := by
            unfold paramBlock at hb
            rw [if_pos hc] at hb
            exact one_hot_length (pp a) (st.categorical_values a) b hb
          simp [List.filter_cons, hc, htl, hlen]
          omega
        · have hlen : b.length = 1 := by
            unfold paramBlock at hb
            rw [if_neg hc] at hb
            simp at hb
            rw [← hb]
            rfl
          simp [List.filter_cons, hc, htl, hlen]
          omega

theorem paramsVec_length (st : PredictorState K) (pp : Attr → K)
    (P : List K) (hP : paramsVec st pp = some P) :
    P.length =
      (st.process_parameters.filter
        (fun a => a ∉ st.categorical_attributes)).length +
      ((st.process_parameters.filter
        (fun a => a ∈ st.categorical_attributes)).map
        (fun a => (st.categorical_values a).length)).sum := by
  unfold paramsVec at hP
  cases hm : seqMap (paramBlock st pp) st.process_parameters with
  | none => rw [hm] at hP; cases hP
  | some Bs =>
    rw [hm] at hP
    simp at hP
    rw [← hP]
    exact paramsBlocks_length st pp st.process_parameters Bs hm

theorem sum_map_const_nat {α : Type} (l : List α) (c : Nat) :
    (l.map (fun _ => c)).sum = c * l.length := by
  induction l with
  | nil => simp
  | cons a tl ih =>
    simp only [List.map_cons, List.sum_cons, ih, List.length_cons]
    ring

theorem posBlocks_length (cosF sinF : K → K) (st : PredictorState K)
    (g : Attr → K) (as : List Attr) :
    ((as.map (fun attr => posBlock1D cosF sinF st attr (g attr))).flatten).length =
      if st.angle_input then 2 * as.length else as.length := by
  cases hang : st.angle_input with
  | false =>
    have hone : (List.length ∘ fun attr : Attr =>
        posBlock1D cosF sinF st attr (g attr)) = fun _ => 1 := by
      funext attr
      simp [Function.comp, posBlock1D, hang]
    rw [List.length_flatten, List.map_map, hone, sum_map_const_nat]
    simp
  | true =>
    have htwo : (List.length ∘ fun attr : Attr =>
        posBlock1D cosF sinF st attr (g attr)) = fun _ => 2 := by
      funext attr
      simp [Function.comp, posBlock1D, hang]
    rw [List.length_flatten, List.map_map, htwo, sum_map_const_nat]
    simp

theorem posPart1D_length (cosF sinF : K → K) (st : PredictorState K)
    (n i : Nat) :
    (posPart1D cosF sinF st n i).length = posWidth1D st := by
  unfold posPart1D posWidth1D
  exact posBlocks_length cosF sinF st (fun attr => posSample1D st attr n i)
    st.position_attributes

theorem posPart2D_length (st : PredictorState K) (r : List K) :
    (posPart2D st r).length = posWidth2D st := by
  unfold posPart2D posWidth2D
  simp [List.enum_length]

theorem seqMap_mem {α β : Type} (f : α → Option β) (l : List α)
    (ys : List β) (h : seqMap f l = some ys) :
    ∀ y ∈ ys, ∃ a ∈ l, f a = some y := by
  induction l generalizing ys with
  | nil =>
    simp only [seqMap, Option.some.injEq] at h
    intro y hy
    rw [← h] at hy
    cases hy
  | cons a tl ih =>
    simp only [seqMap] at h
    cases hb : f a with
    | none => simp [hb] at h
    | some b =>
      cases hm : seqMap f tl with
      | none => simp [hb, hm] at h
      | some bs =>
        rw [hb, hm] at h
        have hys : b :: bs = ys := Option.some.inj h
        subst hys
        intro y hy
        rcases List.mem_cons.mp hy with hy | hy
        · exact ⟨a, List.mem_cons_self a tl, hy ▸ hb⟩
        · rcases ih bs hm y hy with ⟨c, hc, he⟩
          exact ⟨c, List.mem_cons_of_mem a hc, he⟩

theorem load_data1D_cases (cosF sinF sqrtF : K → K)
    (st0 : PredictorState K) (doe : List (DoeRow K)) (data : List (ObsRow K))
    (params : List Attr) (pos : Attr) (out cat : List Attr) (angle : Bool)
    (idx : Attr) (st2 : PredictorState K)
    (h : load_data1D cosF sinF sqrtF st0 doe data params pos out cat angle
      idx = some st2) :
    ∃ exp Xrows, expandRows doe data = some exp ∧
      seqMap (fun dr => trainRow cosF sinF
        (configure1D sqrtF st0 doe data params pos out cat angle idx exp)
        dr.1 dr.2) exp = some Xrows ∧
      st2 = storeArrays
        (configure1D sqrtF st0 doe data params pos out cat angle idx exp)
        Xrows data := by
  unfold load_data1D at h
  cases hexp : expandRows doe data with
  | none => rw [hexp] at h; cases h
  | some exp =>
    rw [hexp] at h
    replace h : (seqMap (fun dr => trainRow cosF sinF
        (configure1D sqrtF st0 doe data params pos out cat angle idx exp)
        dr.1 dr.2) exp).bind (fun Xrows => some (storeArrays
        (configure1D sqrtF st0 doe data params pos out cat angle idx exp)
        Xrows data)) = some st2 := h
    cases hX : seqMap (fun dr => trainRow cosF sinF
        (configure1D sqrtF st0 doe data params pos out cat angle idx exp)
        dr.1 dr.2) exp with
    | none => rw [hX] at h; cases h
    | some Xrows =>
      rw [hX] at h
      exact ⟨exp, Xrows, rfl, hX, (Option.some.inj h).symm⟩

/-- C1: for every configuration whose process parameters encode
successfully (`paramsVec st pp = some P`), every encoded row — the rows of
the 1D and the 2D inference feature matrices, and every training row built
by `load_data` — lays out the process-parameter blocks in declaration order
(one-hot block per categorical attribute, one `(v-mean)/std` scalar per
continuous attribute) followed by the position block(s) last, and its width
is the declared sum (count of continuous process attrs) + (sum of one-hot
widths) + (position width: 1 per position attribute, doubled in 1D angular
mode), identically for every row of one dataset. -/
theorem feature_layout_and_width (cosF sinF sqrtF : K → K)
    (st st0 : PredictorState K) (pp : Attr → K) (n : Nat) (samples : Mat K)
    (P : List K) (doe : List (DoeRow K)) (data : List (ObsRow K))
    (params : List Attr) (pos : Attr) (out cat : List Attr) (angle : Bool)
    (idx : Attr) (hP : paramsVec st pp = some P) :
    predictX1D cosF sinF st pp n =
      some ((List.range n).map (fun i => P ++ posPart1D cosF sinF st n i)) ∧
    (∀ i : Nat, (P ++ posPart1D cosF sinF st n i).length =
      featureWidthFormula st (posWidth1D st)) ∧
    predictX2D st pp samples =
      some (samples.map (fun r => P ++ posPart2D st r)) ∧
    (∀ r : List K, (P ++ posPart2D st r).length =
      featureWidthFormula st (posWidth2D st)) ∧
    (∀ st2, load_data1D cosF sinF sqrtF st0 doe data params pos out cat
        angle idx = some st2 →
      ∀ row ∈ st2.X, row.length =
        featureWidthFormula st2 (posWidth1D st2)) := by
  refine ⟨?_, ?_, ?_, ?_, ?_⟩
  · rw [predictX1D_norm, hP]
    rfl
  · intro i
    rw [List.length_append, paramsVec_length st pp P hP, posPart1D_length]
    rfl
  · rw [predictX2D_norm, hP]
    rfl
  · intro r
    rw [List.length_append, paramsVec_length st pp P hP, posPart2D_length]
    rfl
  · intro st2 hld row hrow
    rcases load_data1D_cases cosF sinF sqrtF st0 doe data params pos out
      cat angle idx st2 hld with ⟨exp, Xrows, hexp, hX, hst2⟩
    subst hst2
    have hrow2 : row ∈ Xrows := hrow
    rcases seqMap_mem _ exp Xrows hX row hrow2 with ⟨dr, hdr, htr⟩
    unfold trainRow at htr
    cases hPv : paramsVec
        (configure1D sqrtF st0 doe data params pos out cat angle idx exp)
        dr.1.val with
    | none => rw [hPv] at htr; cases htr
    | some Pd =>
      rw [hPv] at htr
      have hr : Pd ++ ((configure1D sqrtF st0 doe data params pos out cat
          angle idx exp).position_attributes.map (fun attr =>
          posBlock1D cosF sinF
            (configure1D sqrtF st0 doe data params pos out cat angle idx exp)
            attr (dr.2.val attr))).flatten = row := Option.some.inj htr
      rw [← hr, List.length_append, paramsVec_length _ _ _ hPv,
        posBlocks_length]
      rfl

/-- Witness for C1: a concrete registry with one categorical process
parameter of two recorded values and query value 2, giving the parameter
vector [0, 1]; the 1D feature matrix for 2 sampled positions is laid out as
claimed. -/
theorem feature_layout_and_width_wit :
    paramsVec
      ({ process_parameters := ["b"],
         categorical_attributes := ["b"],
         position_attributes := ["phi"],
         categorical_values := fun _ => [1, 2] } : PredictorState ℚ)
      (fun _ => 2) = some [0, 1] ∧
    predictX1D id id
      ({ process_parameters := ["b"],
         categorical_attributes := ["b"],
         position_attributes := ["phi"],
         categorical_values := fun _ => [1, 2] } : PredictorState ℚ)
      (fun _ => 2) 2 =
      some ((List.range 2).map (fun i => [0, 1] ++ posPart1D id id
        ({ process_parameters := ["b"],
           categorical_attributes := ["b"],
           position_attributes := ["phi"],
           categorical_values := fun _ => [1, 2] } : PredictorState ℚ)
        2 i)) :=
  ⟨by decide,
   (feature_layout_and_width id id id
     ({ process_parameters := ["b"],
        categorical_attributes := ["b"],
        position_attributes := ["phi"],
        categorical_values := fun _ => [1, 2] } : PredictorState ℚ)
     {} (fun _ => 2) 2 [] [0, 1] [] [] [] "phi" [] [] false "doe_id"
     (by decide)).1⟩

/- ------------------------------------------------------------------ -/
/- C2: the 2D sample grid is the row-major Cartesian product.         -/
/- ------------------------------------------------------------------ -/

theorem linspace_length (a b : K) (n : Nat) : (linspace a b n).length = n := by
  unfold linspace
  rw [List.length_map, List.length_range]

theorem linspace_get (a b : K) (n i : Nat) (hi : i < n) :
    (linspace a b n).get? i =
      some (a + (b - a) * (i : K) / ((n : K) - 1)) := by
  unfold linspace
  rw [List.get?_map, List.get?_range hi]
  rfl

theorem grid_length {α β γ : Type} (xs : List α) (ys : List β)
    (g : α → β → γ) :
    ((xs.map (fun x => ys.map (fun y => g x y))).flatten).length =
      xs.length * ys.length := by
  induction xs with
  | nil => simp
  | cons x tl ih =>
    simp only [List.map_cons, List.flatten_cons, List.length_append,
      List.length_map, ih, List.length_cons]
    ring

theorem grid_get {α β γ : Type} (xs : List α) (ys : List β) (g : α → β → γ)
    (i j : Nat) (x : α) (y : β) (hx : xs.get? i = some x)
    (hy : ys.get? j = some y) :
    ((xs.map (fun a => ys.map (fun b => g a b))).flatten).get?
      (i * ys.length + j) = some (g x y) := by
  induction xs generalizing i with
  | nil => simp at hx
  | cons a tl ih =>
    cases i with
    | zero =>
      simp only [List.get?] at hx
      have hx2 : a = x := Option.some.inj hx
      subst hx2
      have hj : j < ys.length := by
        rcases List.get?_eq_some.mp hy with ⟨h, _⟩
        exact h
      rw [List.map_cons, List.flatten_cons, Nat.zero_mul, Nat.zero_add,
        List.get?_append (by rw [List.length_map]; exact hj),
        List.get?_map, hy]
      rfl
    | succ i2 =>
      simp only [List.get?] at hx
      rw [List.map_cons, List.flatten_cons]
      have hidx : (i2 + 1) * ys.length + j =
          (ys.map (fun b => g a b)).length + (i2 * ys.length + j) := by
        rw [List.length_map]
        ring
      rw [hidx, List.get?_append_right (Nat.le_add_right _ _),
        Nat.add_sub_cancel_left]
      exact ih i2 hx

/-- C2: the 2D grid request samples exactly the Cartesian product of the
two linspace samplings, enumerated row-major with the second coordinate
varying fastest; linspace is evenly spaced over the recorded range with
both endpoints included; the numpy row-major reshape places flat entry
`i*countV + j` at grid cell `(i, j)`; and the full grid `predict` returns
those samples with each denormalized output column reshaped by the same
row-major convention. -/
theorem grid_rowmajor_and_reshape (st : PredictorState K) (pp : Attr → K)
    (m : List K → List K) (P : List K) (u v : Attr) (cu cv : Nat)
    (hpos : st.position_attributes = [u, v])
    (hcfg : st.has_config = true) (hm : st.model = some m)
    (hP : paramsVec st pp = some P) :
    (gridSamples st cu cv).length = cu * cv ∧
    (∀ i j (x y : K), i < cu → j < cv →
      (linspace (st.min_values u) (st.max_values u) cu).get? i = some x →
      (linspace (st.min_values v) (st.max_values v) cv).get? j = some y →
      (gridSamples st cu cv).get? (i * cv + j) = some [x, y]) ∧
    (∀ (a b : K) (N k : Nat) (x y : K),
      (linspace a b N).get? (k + 1) = some x →
      (linspace a b N).get? k = some y →
      x - y = (b - a) / ((N : K) - 1)) ∧
    (∀ (a b : K) (N : Nat), 2 ≤ N →
      (linspace a b N).get? 0 = some a ∧
      (linspace a b N).get? (N - 1) = some b) ∧
    (∀ (xs : List K) (i j : Nat), i < cu → j < cv →
      ((reshape2 xs cu cv).get? i).bind (fun row => row.get? j) =
        some (xs.getD (i * cv + j) 0)) ∧
    predict2D st pp (Pos2D.grid cu cv) =
      some (gridSamples st cu cv,
        st.output_attributes.enum.map (fun ia =>
          reshape2 (((gridSamples st cu cv).map
            (fun r => P ++ posPart2D st r)).map
            (fun row => rescale_output st ia.2 ((m row).getD ia.1 0)))
          cu cv)) := by
  have hu : st.position_attributes.getD 0 "" = u := by rw [hpos]; rfl
  have hv : st.position_attributes.getD 1 "" = v := by rw [hpos]; rfl
  refine ⟨?_, ?_, ?_, ?_, ?_, ?_⟩
  · unfold gridSamples
    rw [grid_length, linspace_length, linspace_length]
  · intro i j x y hi hj hx hy
    unfold gridSamples
    rw [hu, hv]
    have := grid_get (linspace (st.min_values u) (st.max_values u) cu)
      (linspace (st.min_values v) (st.max_values v) cv)
      (fun a b => [a, b]) i j x y hx hy
    rw [linspace_length] at this
    exact this
  · intro a b N k x y hx hy
    have hk1 : k + 1 < N := by
      rcases List.get?_eq_some.mp hx with ⟨h, _⟩
      rw [linspace_length] at h
      exact h
    have hk : k < N := Nat.lt_of_succ_lt hk1
    rw [linspace_get a b N (k + 1) hk1] at hx
    rw [linspace_get a b N k hk] at hy
    have hx2 := Option.some.inj hx
    have hy2 := Option.some.inj hy
    rw [← hx2, ← hy2]
    push_cast
    ring
  · intro a b N hN
    have h0 : (0 : Nat) < N := by omega
    have hN1 : N - 1 < N := by omega
    constructor
    · rw [linspace_get a b N 0 h0]
      norm_num
    · rw [linspace_get a b N (N - 1) hN1]
      have hd : ((N : K) - 1) ≠ 0 := by
        have h1 : (1 : K) < (N : K) := by
          exact_mod_cast Nat.lt_of_lt_of_le Nat.one_lt_two hN
        exact sub_ne_zero.mpr (ne_of_gt h1)
      have hcast : ((N - 1 : Nat) : K) = (N : K) - 1 := by
        have : (1 : Nat) ≤ N := by omega
        push_cast [this]
        ring
      rw [hcast, mul_div_assoc, div_self hd, mul_one]
      ring_nf
  · intro xs i j hi hj
    unfold reshape2
    rw [List.get?_map, List.get?_range hi]
    show ((List.range cv).map
      (fun j2 => xs.getD (i * cv + j2) 0)).get? j = _
    rw [List.get?_map, List.get?_range hj]
    rfl
  · unfold predict2D
    rw [hcfg, if_neg (by simp), hm]
    show predictCore2D st pp m (gridSamples st cu cv) (cu, cv) = _
    unfold predictCore2D
    rw [predictX2D_norm, hP]
    rfl

/-- Witness for C2 at the spec's own example: a `(3, 2)` grid over position
ranges `[0, 1] × [0, 10]` yields exactly the 6 samples
`(0,0), (0,10), (1/2,0), (1/2,10), (1,0), (1,10)` in row-major order with
the second coordinate fastest. -/
theorem grid_rowmajor_and_reshape_wit :
    gridSamples
      ({ has_config := true, position_attributes := ["u", "v"],
         max_values := fun a => if a = "u" then 1 else 10,
         model := some (fun _ => [0]),
         output_attributes := ["w"] } : PredictorState ℚ) 3 2 =
      [[0, 0], [0, 10], [1/2, 0], [1/2, 10], [1, 0], [1, 10]] ∧
    (gridSamples
      ({ has_config := true, position_attributes := ["u", "v"],
         max_values := fun a => if a = "u" then 1 else 10,
         model := some (fun _ => [0]),
         output_attributes := ["w"] } : PredictorState ℚ) 3 2).length =
      3 * 2 :=
  ⟨by
    norm_num [gridSamples, linspace, List.range_succ]
    all_goals decide,
   (grid_rowmajor_and_reshape
     ({ has_config := true, position_attributes := ["u", "v"],
        max_values := fun a => if a = "u" then 1 else 10,
        model := some (fun _ => [0]),
        output_attributes := ["w"] } : PredictorState ℚ)
     (fun _ => 0) (fun _ => [0]) [] "u" "v" 3 2 rfl rfl rfl rfl).1⟩

/- ------------------------------------------------------------------ -/
/- C7: not-ready guards and recovery.                                 -/
/- ------------------------------------------------------------------ -/

theorem seqMap_isSome {α β : Type} (f : α → Option β) (l : List α)
    (h : ∀ a ∈ l, (f a).isSome = true) : (seqMap f l).isSome = true := by
  induction l with
  | nil => rfl
  | cons a tl ih =>
    have ha := h a (List.mem_cons_self a tl)
    have htl := ih (fun x hx => h x (List.mem_cons_of_mem a hx))
    show ((f a).bind (fun b =>
      (seqMap f tl).bind (fun bs => some (b :: bs)))).isSome = true
    cases hb : f a with
    | none => rw [hb] at ha; cases ha
    | some b =>
      cases hm : seqMap f tl with
      | none => rw [hm] at htl; cases htl
      | some bs => rfl

theorem firstAppearances_aux {α : Type} [DecidableEq α] (xs : List α) :
    ∀ (acc : List α) (x : α), x ∈ acc ∨ x ∈ xs →
      x ∈ xs.foldl (fun acc y => if y ∈ acc then acc else acc ++ [y]) acc := by
  induction xs with
  | nil =>
    intro acc x hx
    rcases hx with h | h
    · exact h
    · cases h
  | cons a tl ih =>
    intro acc x hx
    rw [List.foldl_cons]
    by_cases hmem : a ∈ acc
    · rw [if_pos hmem]
      apply ih
      rcases hx with h | h
      · exact Or.inl h
      · rcases List.mem_cons.mp h with h2 | h2
        · exact Or.inl (h2 ▸ hmem)
        · exact Or.inr h2
    · rw [if_neg hmem]
      apply ih
      rcases hx with h | h
      · exact Or.inl (List.mem_append_left _ h)
      · rcases List.mem_cons.mp h with h2 | h2
        · exact Or.inl (List.mem_append_right _ (by simp [h2]))
        · exact Or.inr h2

theorem mem_firstAppearances {α : Type} [DecidableEq α] (x : α)
    (xs : List α) (h : x ∈ xs) : x ∈ firstAppearances xs :=
  firstAppearances_aux xs [] x (Or.inr h)

theorem paramBlock_isSome (st : PredictorState K) (pp : Attr → K)
    (attr : Attr)
    (h : attr ∈ st.categorical_attributes →
      pp attr ∈ st.categorical_values attr) :
    (paramBlock st pp attr).isSome = true := by
  unfold paramBlock
  by_cases hc : attr ∈ st.categorical_attributes
  · rw [if_pos hc]
    unfold one_hot
    rw [if_pos (h hc)]
    rfl
  · rw [if_neg hc]
    rfl

theorem paramsVec_isSome (st : PredictorState K) (pp : Attr → K)
    (h : ∀ attr ∈ st.process_parameters,
      attr ∈ st.categorical_attributes →
      pp attr ∈ st.categorical_values attr) :
    (paramsVec st pp).isSome = true := by
  unfold paramsVec
  have hs := seqMap_isSome (paramBlock st pp) st.process_parameters
    (fun a ha => paramBlock_isSome st pp a (h a ha))
  cases hm : seqMap (paramBlock st pp) st.process_parameters with
  | none => rw [hm] at hs; cases hs
  | some Bs => rfl

/-- C7: on a predictor with no loaded data or no model, `predict` (both
variants) and `compare` return no result and perform no mutation (the
method body of `predict` assigns nothing to `self`); and from the fresh
state a valid `load_data` + `train` + `predict` sequence succeeds, provided
every observation row's `doe_id` has a design row and every categorical
process-parameter query value was recorded in the design table. -/
theorem not_ready_and_recovery (cosF sinF sqrtF : K → K)
    (st : PredictorState K) (pp : Attr → K) (n : Nat) (positions : Pos2D K)
    (d : Int) (doe : List (DoeRow K)) (data : List (ObsRow K))
    (params : List Attr) (pos : Attr) (out cat : List Attr) (angle : Bool)
    (idx : Attr) (m : List K → List K)
    (hjoin : ∀ r ∈ data, (doeLookup doe r.id).isSome = true)
    (hcat : ∀ attr ∈ cat, pp attr ∈ doe.map (fun de => de.val attr)) :
    (st.has_config = false → predict1D cosF sinF st pp n = none) ∧
    (st.model = none → predict1D cosF sinF st pp n = none) ∧
    (st.has_config = false → predict2D st pp positions = none) ∧
    (st.model = none → predict2D st pp positions = none) ∧
    (st.model = none → compare1D st d = none) ∧
    (predict1D_method cosF sinF st pp n).1 = st ∧
    (loadTrainPredict cosF sinF sqrtF doe data params pos out cat angle
      idx m pp n).isSome = true := by
  refine ⟨?_, ?_, ?_, ?_, ?_, rfl, ?_⟩
  · intro h
    unfold predict1D
    rw [h, if_pos rfl]
  · intro h
    unfold predict1D
    cases hc : st.has_config with
    | false => rw [if_pos rfl]
    | true =>
      rw [if_neg (by simp), h]
  · intro h
    unfold predict2D
    rw [h, if_pos rfl]
  · intro h
    unfold predict2D
    cases hc : st.has_config with
    | false => rw [if_pos rfl]
    | true =>
      rw [if_neg (by simp), h]
  · intro h
    unfold compare1D
    rw [h]
  · unfold loadTrainPredict
    have hexp : (expandRows doe data).isSome = true := by
      unfold expandRows
      apply seqMap_isSome
      intro r hr
      have hj := hjoin r hr
      cases hl : doeLookup doe r.id with
      | none => rw [hl] at hj; cases hj
      | some de => rfl
    cases hexp2 : expandRows doe data with
    | none => rw [hexp2] at hexp; cases hexp
    | some exp =>
      have hmemdoe : ∀ dr ∈ exp, dr.1 ∈ doe := by
        intro dr hdr
        rcases seqMap_mem _ data exp hexp2 dr hdr with ⟨r, hr, he⟩
        have he2 : (doeLookup doe r.id).map (fun de => (de, r)) = some dr :=
          he
        cases hl : doeLookup doe r.id with
        | none => rw [hl] at he2; cases he2
        | some de =>
          rw [hl] at he2
          have hde : (de, r) = dr := Option.some.inj he2
          rw [← hde]
          exact List.mem_of_find?_eq_some hl
      have hcatvals : ∀ (w : Attr → K), (∀ attr ∈ cat,
          w attr ∈ doe.map (fun de => de.val attr)) →
          (paramsVec (configure1D sqrtF {} doe data params pos out cat
            angle idx exp) w).isSome = true := by
        intro w hw
        apply paramsVec_isSome
        intro attr _ hattr
        exact mem_firstAppearances (w attr) _ (hw attr hattr)
      have htrain : ∀ dr ∈ exp, (trainRow cosF sinF
          (configure1D sqrtF {} doe data params pos out cat angle idx exp)
          dr.1 dr.2).isSome = true := by
        intro dr hdr
        unfold trainRow
        rw [Option.isSome_map']
        exact hcatvals dr.1.val (fun attr _ =>
          List.mem_map_of_mem (fun de => de.val attr) (hmemdoe dr hdr))
      have hXs := seqMap_isSome (fun dr => trainRow cosF sinF
        (configure1D sqrtF {} doe data params pos out cat angle idx exp)
        dr.1 dr.2) exp htrain
      cases hX2 : seqMap (fun dr => trainRow cosF sinF
          (configure1D sqrtF {} doe data params pos out cat angle idx exp)
          dr.1 dr.2) exp with
      | none => rw [hX2] at hXs; cases hXs
      | some Xrows =>
        have hld : load_data1D cosF sinF sqrtF {} doe data params pos out
            cat angle idx = some (storeArrays
            (configure1D sqrtF {} doe data params pos out cat angle idx exp)
            Xrows data) := by
          unfold load_data1D
          rw [hexp2]
          show (seqMap (fun dr => trainRow cosF sinF
            (configure1D sqrtF {} doe data params pos out cat angle idx exp)
            dr.1 dr.2) exp).bind (fun X2 => some (storeArrays
            (configure1D sqrtF {} doe data params pos out cat angle idx exp)
            X2 data)) = _
          rw [hX2]
          rfl
        rw [hld]
        show (predict1D cosF sinF (train (storeArrays
          (configure1D sqrtF {} doe data params pos out cat angle idx exp)
          Xrows data) m) pp n).isSome = true
        unfold predict1D
        rw [if_neg (fun hh => Bool.noConfusion hh)]
        show ((predictX1D cosF sinF (train (storeArrays
          (configure1D sqrtF {} doe data params pos out cat angle idx exp)
          Xrows data) m) pp n).map _).isSome = true
        rw [predictX1D_norm]
        rw [Option.isSome_map', Option.isSome_map']
        exact hcatvals pp hcat

/-- Witness for C7 at a concrete configuration: a one-row design table
(`doe_id` 1, all parameters 5), one observation row, two process
parameters of which one is categorical; the load → train → predict
sequence from the fresh state succeeds. -/
theorem not_ready_and_recovery_wit :
    (loadTrainPredict id id id [⟨1, fun _ => 5⟩] [⟨1, fun _ => 3⟩]
      ["a", "b"] "phi" ["w"] ["b"] false "doe_id" (fun _ => [0])
      (fun _ => (5 : ℚ)) 2).isSome = true :=
  (not_ready_and_recovery id id id {} (fun _ => (5 : ℚ)) 2 (Pos2D.grid 1 1)
    1 [⟨1, fun _ => 5⟩] [⟨1, fun _ => 3⟩] ["a", "b"] "phi" ["w"] ["b"]
    false "doe_id" (fun _ => [0]) (by decide) (by decide)).2.2.2.2.2.2

/- ------------------------------------------------------------------ -/
/- C9: the as_df table result of the 2D predict.                      -/
/- ------------------------------------------------------------------ -/

theorem reshape2_length (xs : List K) (r c : Nat) :
    (reshape2 xs r c).length = r := by
  unfold reshape2
  rw [List.length_map, List.length_range]

theorem reshape2_rows_one (xs : List K) (r : Nat) :
    ∀ row ∈ reshape2 xs r 1, row.length = 1 := by
  intro row hrow
  unfold reshape2 at hrow
  rcases List.mem_map.mp hrow with ⟨i, _, he⟩
  rw [← he, List.length_map, List.length_range]

theorem range_map_getD (xs : List K) :
    (List.range xs.length).map (fun i => xs.getD i 0) = xs := by
  induction xs with
  | nil => rfl
  | cons a tl ih =>
    rw [List.length_cons, List.range_succ_eq_map, List.map_cons,
      List.map_map]
    show (a :: (List.range tl.length).map
      (fun i => (a :: tl).getD (i + 1) 0)) = a :: tl
    have hc : (fun i => (a :: tl).getD (i + 1) 0) =
        (fun i => tl.getD i 0) := by
      funext i
      rfl
    rw [hc, ih]

theorem reshape2_col_squeeze (xs : List K) (N : Nat) (hN : xs.length = N) :
    (reshape2 xs N 1).map (fun row => row.headD 0) = xs := by
  subst hN
  unfold reshape2
  rw [List.map_map]
  have hc : ((fun row : List K => row.headD 0) ∘ fun i =>
      (List.range 1).map (fun j => xs.getD (i * 1 + j) 0)) =
      (fun i => xs.getD i 0) := by
    funext i
    show ((List.range 1).map (fun j => xs.getD (i * 1 + j) 0)).headD 0 = _
    show xs.getD (i * 1 + 0) 0 = xs.getD i 0
    rw [Nat.mul_one, Nat.add_zero]
  rw [hc, range_map_getD]

theorem enum_map_getD {α β : Type} (l : List α) (f : Nat × α → β) (d : β) :
    ∀ ia ∈ l.enum, (l.enum.map f).getD ia.1 d = f ia := by
  intro ia hia
  have h1 : l.enum.get? ia.1 = some ia := by
    have h2 := List.mem_enum_iff_get?.mp hia
    rw [List.get?_enum, h2]
    rfl
  rw [List.getD_eq_get?, List.get?_map, h1]
  rfl

theorem dfFoldCol_two (colOf : Nat × Attr → List K) (u v : Attr)
    (hc : (colOf (1, v)).length = (colOf (0, u)).length) :
    List.foldlM (fun df ia => dfSetCol df ia.2 (colOf ia)) (dfEmpty K)
      [(0, u), (1, v)] =
      some ⟨(colOf (0, u)).length, [(u, colOf (0, u)), (v, colOf (1, v))]⟩ := by
  have h1 : dfSetCol (dfEmpty K) u (colOf (0, u)) =
      some ⟨(colOf (0, u)).length, [(u, colOf (0, u))]⟩ := by
    unfold dfSetCol dfEmpty
    simp
  have h2 : dfSetCol (⟨(colOf (0, u)).length, [(u, colOf (0, u))]⟩ : DF K)
      v (colOf (1, v)) =
      some ⟨(colOf (0, u)).length,
        [(u, colOf (0, u)), (v, colOf (1, v))]⟩ := by
    unfold dfSetCol
    simp [hc]
  show (dfSetCol (dfEmpty K) u (colOf (0, u)) >>= fun df1 =>
    List.foldlM (fun df ia => dfSetCol df ia.2 (colOf ia)) df1 [(1, v)]) = _
  rw [h1]
  show (dfSetCol (⟨(colOf (0, u)).length, [(u, colOf (0, u))]⟩ : DF K) v
    (colOf (1, v)) >>= fun df2 =>
    List.foldlM (fun df ia => dfSetCol df ia.2 (colOf ia)) df2 []) = _
  rw [h2]
  rfl

theorem dfFoldMat_some (result : List (Mat K)) (es : List (Nat × Attr))
    (df : DF K) (hne : df.cols ≠ [])
    (hlen : ∀ ia ∈ es, (result.getD ia.1 []).length = df.nrows)
    (hone : ∀ ia ∈ es, ∀ row ∈ result.getD ia.1 [], row.length = 1) :
    es.foldlM (fun d ia => dfSetColMat d ia.2 (result.getD ia.1 [])) df =
      some ⟨df.nrows, df.cols ++ es.map (fun ia =>
        (ia.2, (result.getD ia.1 []).map (fun row => row.headD 0)))⟩ := by
  induction es generalizing df with
  | nil =>
    cases df with
    | mk nr cols => simp
  | cons e tl ih =>
    rw [List.foldlM_cons]
    have hstep : dfSetColMat df e.2 (result.getD e.1 []) =
        some ⟨df.nrows, df.cols ++
          [(e.2, (result.getD e.1 []).map (fun row => row.headD 0))]⟩ := by
      unfold dfSetColMat
      rw [if_pos]
      · have hni : df.cols.isEmpty = false := by
          cases hcs : df.cols with
          | nil => exact absurd hcs hne
          | cons c cs => rfl
        rw [hni]
        rfl
      · constructor
        · exact Or.inr (hlen e (List.mem_cons_self e tl))
        · exact hone e (List.mem_cons_self e tl)
    rw [hstep]
    show List.foldlM (fun d ia => dfSetColMat d ia.2 (result.getD ia.1 []))
      (⟨df.nrows, df.cols ++
        [(e.2, (result.getD e.1 []).map (fun row => row.headD 0))]⟩ : DF K)
      tl = _
    rw [ih ⟨df.nrows, df.cols ++
        [(e.2, (result.getD e.1 []).map (fun row => row.headD 0))]⟩
      (by simp) (fun ia hia => hlen ia (List.mem_cons_of_mem e hia))
      (fun ia hia => hone ia (List.mem_cons_of_mem e hia))]
    simp

/-- C9 (amended): for an explicit `(N, 2)` coordinate-array request with
`as_df` true, on a loaded and trained 2D predictor whose process encoding
succeeds, `predict` returns a table with one row per sample: the two
position columns hold the sample coordinates and each output column holds
the denormalized prediction for its sample. -/
theorem predict_as_df_coords (st : PredictorState K) (pp : Attr → K)
    (m : List K → List K) (P : List K) (u v : Attr) (samples : Mat K)
    (hpos : st.position_attributes = [u, v])
    (hcfg : st.has_config = true) (hm : st.model = some m)
    (hP : paramsVec st pp = some P)
    (hsh : samples.all (fun r => r.length = 2) = true) :
    predictDF2D st pp (Pos2D.coords samples) =
      some ⟨samples.length,
        [(u, samples.map (fun r => r.getD 0 0)),
         (v, samples.map (fun r => r.getD 1 0))] ++
        st.output_attributes.enum.map (fun ia =>
          (ia.2, (samples.map (fun r => P ++ posPart2D st r)).map
            (fun row => rescale_output st ia.2 ((m row).getD ia.1 0))))⟩ := by
  have hpred : predict2D st pp (Pos2D.coords samples) =
      some (samples, st.output_attributes.enum.map (fun ia =>
        reshape2 ((samples.map (fun r => P ++ posPart2D st r)).map
          (fun row => rescale_output st ia.2 ((m row).getD ia.1 0)))
        samples.length 1)) := by
    unfold predict2D
    rw [hcfg, if_neg (by simp), hm]
    show (if samples.all (fun r => r.length = 2) = true then
      predictCore2D st pp m samples (samples.length, 1) else none) = _
    rw [if_pos hsh]
    unfold predictCore2D
    rw [predictX2D_norm, hP]
    rfl
  unfold predictDF2D
  rw [hpred]
  show buildDF2D st samples (st.output_attributes.enum.map (fun ia =>
      reshape2 ((samples.map (fun r => P ++ posPart2D st r)).map
        (fun row => rescale_output st ia.2 ((m row).getD ia.1 0)))
      samples.length 1)) = _
  unfold buildDF2D
  rw [hpos]
  rw [show ([u, v] : List Attr).enum = [(0, u), (1, v)] from rfl]
  have hfold2 := dfFoldCol_two
    (fun ia => samples.map (fun r => r.getD ia.1 0)) u v
    (by rw [List.length_map, List.length_map])
  simp only [List.length_map] at hfold2
  rw [hfold2]
  show (st.output_attributes.enum.foldlM
    (fun d ia => dfSetColMat d ia.2
      ((st.output_attributes.enum.map (fun ia2 =>
        reshape2 ((samples.map (fun r => P ++ posPart2D st r)).map
          (fun row => rescale_output st ia2.2 ((m row).getD ia2.1 0)))
        samples.length 1)).getD ia.1 []))
    (⟨samples.length, [(u, samples.map (fun r => r.getD 0 0)),
      (v, samples.map (fun r => r.getD 1 0))]⟩ : DF K)) = _
  rw [dfFoldMat_some (st.output_attributes.enum.map (fun ia2 =>
      reshape2 ((samples.map (fun r => P ++ posPart2D st r)).map
        (fun row => rescale_output st ia2.2 ((m row).getD ia2.1 0)))
      samples.length 1)) st.output_attributes.enum
    (⟨samples.length, [(u, samples.map (fun r => r.getD 0 0)),
      (v, samples.map (fun r => r.getD 1 0))]⟩ : DF K)
    (by simp)
    (fun ia hia => by
      rw [enum_map_getD st.output_attributes _ [] ia hia, reshape2_length])
    (fun ia hia => by
      rw [enum_map_getD st.output_attributes _ [] ia hia]
      exact reshape2_rows_one _ _)]
  have hcols : st.output_attributes.enum.map (fun ia =>
      (ia.2, ((st.output_attributes.enum.map (fun ia2 =>
        reshape2 ((samples.map (fun r => P ++ posPart2D st r)).map
          (fun row => rescale_output st ia2.2 ((m row).getD ia2.1 0)))
        samples.length 1)).getD ia.1 []).map (fun row => row.headD 0))) =
      st.output_attributes.enum.map (fun ia =>
        (ia.2, (samples.map (fun r => P ++ posPart2D st r)).map
          (fun row => rescale_output st ia.2 ((m row).getD ia.1 0)))) := by
    apply List.map_congr_left
    intro ia hia
    rw [enum_map_getD st.output_attributes _ [] ia hia,
      reshape2_col_squeeze _ _ (by rw [List.length_map, List.length_map])]
  rw [hcols]

/-- Counterexample for C9 as stated: on a loaded and trained 2D predictor,
a `(3, 2)` grid request with `as_df` true produces no table — each output
is reshaped to a `(3, 2)` matrix (length 3), which cannot be a column of
the 6-row table, so the pandas column assignment fails. -/
theorem predict_as_df_grid_fails :
    predictDF2D
      ({ has_config := true, position_attributes := ["u", "v"],
         output_attributes := ["w"],
         max_values := fun a => if a = "u" then 1 else 10,
         model := some (fun _ => [0]) } : PredictorState ℚ)
      (fun _ => 0) (Pos2D.grid 3 2) = none := by
  set stC : PredictorState ℚ :=
    { has_config := true, position_attributes := ["u", "v"],
      output_attributes := ["w"],
      max_values := fun a => if a = "u" then 1 else 10,
      model := some (fun _ => [0]) } with hstC
  have hslen : (gridSamples stC 3 2).length = 6 := by
    unfold gridSamples
    rw [grid_length, linspace_length, linspace_length]
  have hpred : predict2D stC (fun _ => 0) (Pos2D.grid 3 2) =
      some (gridSamples stC 3 2,
        [reshape2 (((gridSamples stC 3 2).map
          (fun r => [] ++ posPart2D stC r)).map
          (fun row => rescale_output stC "w"
            (((fun _ => ([0] : List ℚ)) row).getD 0 0))) 3 2]) := by
    unfold predict2D
    rw [show stC.model = some (fun _ => ([0] : List ℚ)) from rfl]
    rw [if_neg (fun hh => Bool.noConfusion hh)]
    show predictCore2D stC (fun _ => 0) (fun _ => [0])
      (gridSamples stC 3 2) (3, 2) = _
    unfold predictCore2D
    rw [predictX2D_norm]
    rfl
  unfold predictDF2D
  rw [hpred]
  show buildDF2D stC (gridSamples stC 3 2)
    [reshape2 (((gridSamples stC 3 2).map
      (fun r => [] ++ posPart2D stC r)).map
      (fun row => rescale_output stC "w"
        (((fun _ => ([0] : List ℚ)) row).getD 0 0))) 3 2] = none
  unfold buildDF2D
  rw [show stC.position_attributes = ["u", "v"] from rfl]
  rw [show (["u", "v"] : List Attr).enum = [(0, "u"), (1, "v")] from rfl]
  have hfold2 := dfFoldCol_two
    (fun ia => (gridSamples stC 3 2).map (fun r => r.getD ia.1 0)) "u" "v"
    (by rw [List.length_map, List.length_map])
  simp only [List.length_map] at hfold2
  rw [hfold2]
  rw [show stC.output_attributes = ["w"] from rfl]
  rw [show (["w"] : List Attr).enum = [(0, "w")] from rfl]
  show (dfSetColMat
    (⟨(gridSamples stC 3 2).length,
      [("u", (gridSamples stC 3 2).map (fun r => r.getD 0 0)),
       ("v", (gridSamples stC 3 2).map (fun r => r.getD 1 0))]⟩ : DF ℚ)
    "w" ([reshape2 (((gridSamples stC 3 2).map
      (fun r => [] ++ posPart2D stC r)).map
      (fun row => rescale_output stC "w"
        (((fun _ => ([0] : List ℚ)) row).getD 0 0))) 3 2].getD 0 []) >>=
    fun d2 => List.foldlM (fun (d : DF ℚ) (ia : Nat × Attr) =>
      dfSetColMat d ia.2
      ([reshape2 (((gridSamples stC 3 2).map
        (fun r => [] ++ posPart2D stC r)).map
        (fun row => rescale_output stC "w"
          (((fun _ => ([0] : List ℚ)) row).getD 0 0))) 3 2].getD ia.1 []))
      d2 ([] : List (Nat × Attr))) = none
  have hnone : dfSetColMat
      (⟨(gridSamples stC 3 2).length,
        [("u", (gridSamples stC 3 2).map (fun r => r.getD 0 0)),
         ("v", (gridSamples stC 3 2).map (fun r => r.getD 1 0))]⟩ : DF ℚ)
      "w" ([reshape2 (((gridSamples stC 3 2).map
        (fun r => [] ++ posPart2D stC r)).map
        (fun row => rescale_output stC "w"
          (((fun _ => ([0] : List ℚ)) row).getD 0 0))) 3 2].getD 0 []) =
      none := by
    unfold dfSetColMat
    rw [if_neg]
    intro hcond
    rcases hcond.1 with hemp | hlen2
    · simp at hemp
    · rw [show ([reshape2 (((gridSamples stC 3 2).map
        (fun r => [] ++ posPart2D stC r)).map
        (fun row => rescale_output stC "w"
          (((fun _ => ([0] : List ℚ)) row).getD 0 0))) 3 2].getD 0 []) =
        reshape2 (((gridSamples stC 3 2).map
        (fun r => [] ++ posPart2D stC r)).map
        (fun row => rescale_output stC "w"
          (((fun _ => ([0] : List ℚ)) row).getD 0 0))) 3 2 from rfl,
        reshape2_length] at hlen2
      rw [hslen] at hlen2
      exact absurd hlen2 (by norm_num)
  rw [hnone]
  rfl

/-- Witness for the amended C9 on a concrete explicit coordinate array:
two sample points, one output attribute. -/
theorem predict_as_df_coords_wit :
    predictDF2D
      ({ has_config := true,
         position_attributes := ["u", "v"],
         output_attributes := ["w"],
         model := some (fun _ => [0]) } : PredictorState ℚ)
      (fun _ => 0) (Pos2D.coords [[1, 2], [3, 4]]) =
      some ⟨([[1, 2], [3, 4]] : Mat ℚ).length,
        [("u", ([[1, 2], [3, 4]] : Mat ℚ).map (fun r => r.getD 0 0)),
         ("v", ([[1, 2], [3, 4]] : Mat ℚ).map (fun r => r.getD 1 0))] ++
        ({ has_config := true,
           position_attributes := ["u", "v"],
           output_attributes := ["w"],
           model := some (fun _ => [0]) } :
           PredictorState ℚ).output_attributes.enum.map (fun ia =>
          (ia.2, (([[1, 2], [3, 4]] : Mat ℚ).map (fun r =>
            [] ++ posPart2D
              ({ has_config := true,
                 position_attributes := ["u", "v"],
                 output_attributes := ["w"],
                 model := some (fun _ => [0]) } : PredictorState ℚ) r)).map
            (fun row => rescale_output
              ({ has_config := true,
                 position_attributes := ["u", "v"],
                 output_attributes := ["w"],
                 model := some (fun _ => [0]) } : PredictorState ℚ) ia.2
              (((fun _ => ([0] : List ℚ)) row).getD ia.1 0))))⟩ :=
  predict_as_df_coords
    ({ has_config := true,
       position_attributes := ["u", "v"],
       output_attributes := ["w"],
       model := some (fun _ => [0]) } : PredictorState ℚ)
    (fun _ => 0) (fun _ => [0]) [] "u" "v" [[1, 2], [3, 4]]
    rfl rfl rfl rfl (by decide)

/- ------------------------------------------------------------------ -/
/- C10: compare operates on copies; the stored arrays are unchanged.  -/
/- ------------------------------------------------------------------ -/

theorem read_alloc_lt (h : Heap K) (m2 : Mat K) (r : Nat)
    (hr : r < h.bufs.length) : (h.alloc m2).1.read r = h.read r := by
  unfold Heap.alloc Heap.read
  rw [List.getD_eq_get?, List.getD_eq_get?]
  show ((h.bufs ++ [m2]).get? r).getD [] = _
  rw [List.get?_append hr]

theorem read_write_ne (h : Heap K) (r2 : Nat) (m2 : Mat K) (r : Nat)
    (hne : r2 ≠ r) : (h.write r2 m2).read r = h.read r := by
  unfold Heap.write Heap.read
  rw [List.getD_eq_getElem?_getD, List.getD_eq_getElem?_getD]
  show ((h.bufs.set r2 m2)[r]?).getD [] = (h.bufs[r]?).getD []
  rw [List.getElem?_set_ne hne]

theorem alloc_length (h : Heap K) (m2 : Mat K) :
    (h.alloc m2).1.bufs.length = h.bufs.length + 1 := by
  unfold Heap.alloc
  rw [List.length_append]
  rfl

theorem write_length (h : Heap K) (r2 : Nat) (m2 : Mat K) :
    (h.write r2 m2).bufs.length = h.bufs.length := by
  unfold Heap.write
  exact List.length_set h.bufs r2 m2

theorem foldl_write_read {β : Type} (es : List β) (ref : Nat)
    (F : Heap K → β → Mat K) (h : Heap K) (r : Nat) (hne : ref ≠ r) :
    (es.foldl (fun hh e => hh.write ref (F hh e)) h).read r = h.read r := by
  induction es generalizing h with
  | nil => rfl
  | cons e tl ih =>
    rw [List.foldl_cons, ih (h.write ref (F h e)),
      read_write_ne h ref (F h e) r hne]

theorem foldl_write_length {β : Type} (es : List β) (ref : Nat)
    (F : Heap K → β → Mat K) (h : Heap K) :
    (es.foldl (fun hh e => hh.write ref (F hh e)) h).bufs.length =
      h.bufs.length := by
  induction es generalizing h with
  | nil => rfl
  | cons e tl ih =>
    rw [List.foldl_cons, ih (h.write ref (F h e)),
      write_length h ref (F h e)]

theorem compareBufOps_read (h : Heap K) (rX rT : Nat) (mask : List Bool)
    (st : PredictorState K) (m : List K → List K) (r : Nat)
    (hr : r < h.bufs.length) :
    (compareBufOps h rX rT mask st m).1.read r = h.read r := by
  unfold compareBufOps
  set H1 := (h.alloc (maskSelect (h.read rX) mask)).1 with hH1
  set H2 := (H1.alloc (maskSelect (H1.read rT) mask)).1 with hH2
  have l1 : H1.bufs.length = h.bufs.length + 1 := alloc_length h _
  have l2 : H2.bufs.length = h.bufs.length + 2 := by
    rw [hH2, alloc_length, l1]
  set H3 := st.output_attributes.enum.foldl
    (fun hh ia => hh.write (H1.alloc (maskSelect (H1.read rT) mask)).2
      (setColMap (hh.read (H1.alloc (maskSelect (H1.read rT) mask)).2)
        ia.1 (rescale_output st ia.2))) H2 with hH3
  have l3 : H3.bufs.length = h.bufs.length + 2 := by
    rw [hH3, foldl_write_length, l2]
  set H4 := (H3.alloc ((H3.read (h.alloc (maskSelect (h.read rX) mask)).2).map
    m)).1 with hH4
  have e5 : (st.output_attributes.enum.foldl
      (fun hh ia => hh.write
        (H3.alloc ((H3.read (h.alloc (maskSelect (h.read rX) mask)).2).map
          m)).2
        (setColMap (hh.read (H3.alloc
          ((H3.read (h.alloc (maskSelect (h.read rX) mask)).2).map m)).2)
          ia.1 (rescale_output st ia.2))) H4).read r = H4.read r := by
    apply foldl_write_read
    show H3.bufs.length ≠ r
    omega
  rw [e5]
  have e4 : H4.read r = H3.read r := by
    rw [hH4]
    apply read_alloc_lt
    omega
  rw [e4]
  have e3 : H3.read r = H2.read r := by
    rw [hH3]
    apply foldl_write_read
    show H1.bufs.length ≠ r
    omega
  rw [e3]
  have e2 : H2.read r = H1.read r := by
    rw [hH2]
    apply read_alloc_lt
    omega
  rw [e2]
  rw [hH1]
  apply read_alloc_lt
  exact hr

theorem compareBufOps1D_read (h : Heap K) (rX rT : Nat)
    (indices : List Nat) (st : PredictorState K) (m : List K → List K)
    (r : Nat) (hr : r < h.bufs.length) :
    (compareBufOps1D h rX rT indices st m).1.read r = h.read r := by
  unfold compareBufOps1D
  set H1 := (h.alloc (selIdx (h.read rX) indices)).1 with hH1
  set H2 := (H1.alloc (selIdx (H1.read rT) indices)).1 with hH2
  have l1 : H1.bufs.length = h.bufs.length + 1 := alloc_length h _
  have l2 : H2.bufs.length = h.bufs.length + 2 := by
    rw [hH2, alloc_length, l1]
  set H3 := st.output_attributes.enum.foldl
    (fun hh ia => hh.write (H1.alloc (selIdx (H1.read rT) indices)).2
      (setColMap (hh.read (H1.alloc (selIdx (H1.read rT) indices)).2)
        ia.1 (rescale_output st ia.2))) H2 with hH3
  have l3 : H3.bufs.length = h.bufs.length + 2 := by
    rw [hH3, foldl_write_length, l2]
  set H4 := (H3.alloc ((H3.read (h.alloc (selIdx (h.read rX) indices)).2).map
    m)).1 with hH4
  have e5 : (st.output_attributes.enum.foldl
      (fun hh ia => hh.write
        (H3.alloc ((H3.read (h.alloc (selIdx (h.read rX) indices)).2).map
          m)).2
        (setColMap (hh.read (H3.alloc
          ((H3.read (h.alloc (selIdx (h.read rX) indices)).2).map m)).2)
          ia.1 (rescale_output st ia.2))) H4).read r = H4.read r := by
    apply foldl_write_read
    show H3.bufs.length ≠ r
    omega
  rw [e5]
  have e4 : H4.read r = H3.read r := by
    rw [hH4]
    apply read_alloc_lt
    omega
  rw [e4]
  have e3 : H3.read r = H2.read r := by
    rw [hH3]
    apply foldl_write_read
    show H1.bufs.length ≠ r
    omega
  rw [e3]
  have e2 : H2.read r = H1.read r := by
    rw [hH2]
    apply read_alloc_lt
    omega
  rw [e2]
  rw [hH1]
  apply read_alloc_lt
  exact hr

/-- C10: the array operations of `_compare` (1D fancy-index selection and
2D mask selection, shared with `compare_xyz`) never touch the stored
dataset buffers: after the whole operation the buffers of `self.X` and
`self.target` hold exactly what they held before — the in-place
denormalizations hit only the freshly allocated copies — and the pure
`predict` call leaves the state's `X` and `target` fields unchanged. -/
theorem compare_preserves_stored_arrays (cosF sinF : K → K) (h : Heap K)
    (rX rT : Nat) (mask : List Bool) (indices : List Nat)
    (st st2 : PredictorState K) (m : List K → List K) (pp : Attr → K)
    (n : Nat) (hX : rX < h.bufs.length) (hT : rT < h.bufs.length) :
    ((compareBufOps h rX rT mask st m).1.read rX = h.read rX ∧
     (compareBufOps h rX rT mask st m).1.read rT = h.read rT) ∧
    ((compareBufOps1D h rX rT indices st m).1.read rX = h.read rX ∧
     (compareBufOps1D h rX rT indices st m).1.read rT = h.read rT) ∧
    ((predict1D_method cosF sinF st2 pp n).1.X = st2.X ∧
     (predict1D_method cosF sinF st2 pp n).1.target = st2.target) :=
  ⟨⟨compareBufOps_read h rX rT mask st m rX hX,
    compareBufOps_read h rX rT mask st m rT hT⟩,
   ⟨compareBufOps1D_read h rX rT indices st m rX hX,
    compareBufOps1D_read h rX rT indices st m rT hT⟩,
   ⟨rfl, rfl⟩⟩

/-- Witness for C10 on a concrete two-buffer heap (the stored `X` at
reference 0 and `target` at reference 1), one selected row, one output. -/
theorem compare_preserves_stored_arrays_wit :
    ((compareBufOps (⟨[[[1, 2]], [[3]]]⟩ : Heap ℚ) 0 1 [true]
        ({ output_attributes := ["w"] } : PredictorState ℚ)
        (fun _ => [0])).1.read 0 =
      (⟨[[[1, 2]], [[3]]]⟩ : Heap ℚ).read 0 ∧
     (compareBufOps (⟨[[[1, 2]], [[3]]]⟩ : Heap ℚ) 0 1 [true]
        ({ output_attributes := ["w"] } : PredictorState ℚ)
        (fun _ => [0])).1.read 1 =
      (⟨[[[1, 2]], [[3]]]⟩ : Heap ℚ).read 1) ∧
    ((compareBufOps1D (⟨[[[1, 2]], [[3]]]⟩ : Heap ℚ) 0 1 [0]
        ({ output_attributes := ["w"] } : PredictorState ℚ)
        (fun _ => [0])).1.read 0 =
      (⟨[[[1, 2]], [[3]]]⟩ : Heap ℚ).read 0 ∧
     (compareBufOps1D (⟨[[[1, 2]], [[3]]]⟩ : Heap ℚ) 0 1 [0]
        ({ output_attributes := ["w"] } : PredictorState ℚ)
        (fun _ => [0])).1.read 1 =
      (⟨[[[1, 2]], [[3]]]⟩ : Heap ℚ).read 1) ∧
    ((predict1D_method id id ({} : PredictorState ℚ) (fun _ => 0) 1).1.X =
      ({} : PredictorState ℚ).X ∧
     (predict1D_method id id ({} : PredictorState ℚ) (fun _ => 0) 1).1.target
      = ({} : PredictorState ℚ).target) :=
  compare_preserves_stored_arrays id id (⟨[[[1, 2]], [[3]]]⟩ : Heap ℚ) 0 1
    [true] [0] ({ output_attributes := ["w"] } : PredictorState ℚ)
    ({} : PredictorState ℚ) (fun _ => [0]) (fun _ => 0) 1
    (by decide) (by decide)

/- ------------------------------------------------------------------ -/
/- C4: one-hot exclusivity and the unknown-category failure.          -/
/- ------------------------------------------------------------------ -/

theorem count_one_of_mem (v : K) (values : List K) (hnd : values.Nodup)
    (hv : v ∈ values) :
    (values.map (fun u => if u = v then (1 : K) else 0)).count 1 = 1 := by
  induction values with
  | nil => cases hv
  | cons a tl ih =>
    rcases List.mem_cons.mp hv with h | h
    · subst h
      have hnotin : v ∉ tl := (List.nodup_cons.mp hnd).1
      have : ∀ u ∈ tl, ¬ ((if u = v then (1 : K) else 0) = 1) := by
        intro u hu
        have huv : u ≠ v := fun e => hnotin (e ▸ hu)
        simp [huv]
      simp [List.count_cons, List.count_eq_zero.mpr, this]
      rw [List.count_eq_zero.mpr]
      intro hmem
      rcases List.mem_map.mp hmem with ⟨u, hu, he⟩
      exact this u hu he
    · have hne : a ≠ v := by
        intro e
        exact (List.nodup_cons.mp hnd).1 (e ▸ h)
      have := ih (List.nodup_cons.mp hnd).2 h
      simp [List.count_cons, hne, this]

theorem count_zero_of_mem (v : K) (values : List K) (hnd : values.Nodup)
    (hv : v ∈ values) :
    (values.map (fun u => if u = v then (1 : K) else 0)).count 0 =
      values.length - 1 := by
  induction values with
  | nil => cases hv
  | cons a tl ih =>
    rcases List.mem_cons.mp hv with h | h
    · subst h
      have hnotin : v ∉ tl := (List.nodup_cons.mp hnd).1
      have hall : (tl.map (fun u => if u = v then (1 : K) else 0)).count 0 =
          (tl.map (fun u => if u = v then (1 : K) else 0)).length := by
        rw [List.count_eq_length]
        intro b hb
        rcases List.mem_map.mp hb with ⟨u, hu, he⟩
        have huv : u ≠ v := fun e => hnotin (e ▸ hu)
        rw [← he]
        simp [huv]
      simp only [List.length_map] at hall
      simp [List.count_cons, hall, one_ne_zero]
    · have hne : a ≠ v := by
        intro e
        exact (List.nodup_cons.mp hnd).1 (e ▸ h)
      have htl := ih (List.nodup_cons.mp hnd).2 h
      have hlen : 1 ≤ tl.length := by
        cases tl with
        | nil => cases h
        | cons b tb => simp
      simp [List.count_cons, hne, htl]
      omega

/-- C4: for a categorical attribute with `k` distinct recorded values,
encoding a recorded value yields a width-`k` vector containing exactly one
`1.0` and `k - 1` zeros, the `1.0` sitting at the recorded value's index;
encoding an unrecorded value fails (`none`, the `UnknownCategoryError`),
producing no vector. -/
theorem one_hot_exclusive (v : K) (values : List K) (hnd : values.Nodup) :
    (v ∈ values →
      ∃ l, one_hot v values = some l ∧
        l.length = values.length ∧
        l.count 1 = 1 ∧
        l.count 0 = values.length - 1 ∧
        l.get? (values.indexOf v) = some 1) ∧
    (v ∉ values → one_hot v values = none) := by
  constructor
  · intro hv
    refine ⟨values.map (fun u => if u = v then (1 : K) else 0), ?_, ?_, ?_, ?_, ?_⟩
    · simp [one_hot, hv]
    · simp
    · exact count_one_of_mem v values hnd hv
    · exact count_zero_of_mem v values hnd hv
    · have hidx : values.indexOf v < values.length := List.indexOf_lt_length.mpr hv
      rw [List.get?_map]
      rw [List.get?_eq_get hidx]
      simp [List.indexOf_get hidx]
  · intro hv
    simp [one_hot, hv]

/-- Witness for C4 at a concrete registry: recorded values `[2, 5, 9]`,
recorded query `5`, unrecorded query `7`. -/
theorem one_hot_exclusive_wit :
    ((5 : ℚ) ∈ [(2 : ℚ), 5, 9] →
      ∃ l, one_hot (5 : ℚ) [(2 : ℚ), 5, 9] = some l ∧
        l.length = [(2 : ℚ), 5, 9].length ∧
        l.count 1 = 1 ∧
        l.count 0 = [(2 : ℚ), 5, 9].length - 1 ∧
        l.get? ([(2 : ℚ), 5, 9].indexOf 5) = some 1) ∧
    ((5 : ℚ) ∉ [(2 : ℚ), 5, 9] → one_hot (5 : ℚ) [(2 : ℚ), 5, 9] = none) :=
  one_hot_exclusive (5 : ℚ) [(2 : ℚ), 5, 9] (by decide)

/- ------------------------------------------------------------------ -/
/- C6: angular position encoding (1D variant).                        -/
/- ------------------------------------------------------------------ -/

/-- C6: with angular mode enabled the 1D position block at sampled position
`v` is `[cos v, sin v]` (doubling the attribute's feature width to 2), and
at the endpoints of a `[0, 2π]` range — positions `0` and `2π` — it is
`[1, 0]` in both cases. -/
theorem angular_block_periodic (st : PredictorState ℝ) (attr : Attr)
    (h : st.angle_input = true) :
    (∀ v : ℝ,
      posBlock1D Real.cos Real.sin st attr v = [Real.cos v, Real.sin v]) ∧
    (∀ v : ℝ, (posBlock1D Real.cos Real.sin st attr v).length = 2) ∧
    posBlock1D Real.cos Real.sin st attr 0 = [1, 0] ∧
    posBlock1D Real.cos Real.sin st attr (2 * Real.pi) = [1, 0] := by
  have hb : ∀ v : ℝ,
      posBlock1D Real.cos Real.sin st attr v = [Real.cos v, Real.sin v] := by
    intro v
    simp [posBlock1D, h]
  refine ⟨hb, fun v => by rw [hb v]; rfl, ?_, ?_⟩
  · rw [hb 0, Real.cos_zero, Real.sin_zero]
  · rw [hb (2 * Real.pi), Real.cos_two_pi, Real.sin_two_pi]

/-- Witness for C6 at a concrete angular-mode registry. -/
theorem angular_block_periodic_wit :
    (∀ v : ℝ,
      posBlock1D Real.cos Real.sin
        ({ angle_input := true } : PredictorState ℝ) "c_phi" v =
        [Real.cos v, Real.sin v]) ∧
    (∀ v : ℝ,
      (posBlock1D Real.cos Real.sin
        ({ angle_input := true } : PredictorState ℝ) "c_phi" v).length = 2) ∧
    posBlock1D Real.cos Real.sin
      ({ angle_input := true } : PredictorState ℝ) "c_phi" 0 = [1, 0] ∧
    posBlock1D Real.cos Real.sin
      ({ angle_input := true } : PredictorState ℝ) "c_phi"
      (2 * Real.pi) = [1, 0] :=
  angular_block_periodic ({ angle_input := true } : PredictorState ℝ)
    "c_phi" rfl

/- ------------------------------------------------------------------ -/
/- C3: the leave-one-experiment-out validation split.                 -/
/- ------------------------------------------------------------------ -/

/-- C3: after a `leaveoneout` split on experiment `X`: no row of experiment
`X` is in the training rows, every row of experiment `X` is in the
validation rows, no row of any other experiment is in the validation rows,
and both parts draw only from the dataset rows. -/
theorem leaveoneout_isolation {R : Type} (rows : List R) (idOf : R → Int)
    (x : Int) :
    (∀ r ∈ (leaveOneOutSplit rows idOf x).1, idOf r ≠ x) ∧
    (∀ r ∈ rows, idOf r = x → r ∈ (leaveOneOutSplit rows idOf x).2) ∧
    (∀ r ∈ (leaveOneOutSplit rows idOf x).2, idOf r = x) ∧
    (∀ r ∈ (leaveOneOutSplit rows idOf x).1, r ∈ rows) ∧
    (∀ r ∈ (leaveOneOutSplit rows idOf x).2, r ∈ rows) := by
  refine ⟨?_, ?_, ?_, ?_, ?_⟩
  · intro r hr
    have := List.of_mem_filter hr
    simpa using this
  · intro r hr he
    refine List.mem_filter.mpr ⟨hr, ?_⟩
    simpa using he
  · intro r hr
    have := List.of_mem_filter hr
    simpa using this
  · intro r hr
    exact List.mem_of_mem_filter hr
  · intro r hr
    exact List.mem_of_mem_filter hr

/-- Witness for C3 on a concrete dataset: rows of experiments 1, 2, 1, 3
(rows are pairs of id and payload), holding out experiment 1. -/
theorem leaveoneout_isolation_wit :
    (∀ r ∈ (leaveOneOutSplit [((1 : Int), (10 : Int)), (2, 20), (1, 11),
        (3, 30)] Prod.fst 1).1, r.fst ≠ 1) ∧
    (∀ r ∈ [((1 : Int), (10 : Int)), (2, 20), (1, 11), (3, 30)],
      r.fst = 1 → r ∈ (leaveOneOutSplit [((1 : Int), (10 : Int)), (2, 20),
        (1, 11), (3, 30)] Prod.fst 1).2) ∧
    (∀ r ∈ (leaveOneOutSplit [((1 : Int), (10 : Int)), (2, 20), (1, 11),
        (3, 30)] Prod.fst 1).2, r.fst = 1) ∧
    (∀ r ∈ (leaveOneOutSplit [((1 : Int), (10 : Int)), (2, 20), (1, 11),
        (3, 30)] Prod.fst 1).1,
      r ∈ [((1 : Int), (10 : Int)), (2, 20), (1, 11), (3, 30)]) ∧
    (∀ r ∈ (leaveOneOutSplit [((1 : Int), (10 : Int)), (2, 20), (1, 11),
        (3, 30)] Prod.fst 1).2,
      r ∈ [((1 : Int), (10 : Int)), (2, 20), (1, 11), (3, 30)]) :=
  leaveoneout_isolation [((1 : Int), (10 : Int)), (2, 20), (1, 11), (3, 30)]
    Prod.fst 1

/- ------------------------------------------------------------------ -/
/- C8: the reference scripts' load_data call vs the 1D signature.     -/
/- ------------------------------------------------------------------ -/

/-- C8: the reference scripts' keyword set does not bind against the 1D
`load_data` signature of `src/cut_predictor/Regressor1D.py` —
`validation_split`, `validation_method` and `position_scaler` name no
declared parameter, so the call raises `TypeError` instead of loading the
data and building the registry, dataset and split. -/
theorem load_data_script_call_fails :
    kwargsBind load_data_1d_sig cut_script_kwargs = false ∧
    "validation_split" ∈ cut_script_kwargs ∧
    "validation_split" ∉ load_data_1d_sig ∧
    "validation_method" ∈ cut_script_kwargs ∧
    "validation_method" ∉ load_data_1d_sig ∧
    "position_scaler" ∈ cut_script_kwargs ∧
    "position_scaler" ∉ load_data_1d_sig := by
  decide

/- ------------------------------------------------------------------ -/
/- C5: normalize / denormalize round trip.                            -/
/- ------------------------------------------------------------------ -/

/-- C5: for every attribute whose recorded standard deviation is nonzero
(the registry invariant, spec §3) and every value `x`, denormalizing the
normalized value gives back `x` exactly — including negative and zero `x` —
and the two maps are two-sided inverses: normalization is `(x - mean)/std`
and denormalization `mean + std * y`. -/
theorem rescale_normalize_roundtrip (st : PredictorState K) (attr : Attr)
    (h : st.std_values attr ≠ 0) (x : K) :
    rescale_output st attr (normalize_value st attr x) = x ∧
    normalize_value st attr (rescale_output st attr x) = x := by
  unfold rescale_output normalize_value
  constructor
  · field_simp
  · field_simp

/-- Witness for C5 at a concrete registry (mean 5, std 2) and the negative
input `x = -3`. -/
theorem rescale_normalize_roundtrip_wit :
    rescale_output
        ({ mean_values := fun _ => 5, std_values := fun _ => 2 } :
          PredictorState ℚ) "c_rho"
        (normalize_value
          ({ mean_values := fun _ => 5, std_values := fun _ => 2 } :
            PredictorState ℚ) "c_rho" (-3)) = (-3 : ℚ) ∧
    normalize_value
        ({ mean_values := fun _ => 5, std_values := fun _ => 2 } :
          PredictorState ℚ) "c_rho"
        (rescale_output
          ({ mean_values := fun _ => 5, std_values := fun _ => 2 } :
            PredictorState ℚ) "c_rho" (-3)) = (-3 : ℚ) :=
  rescale_normalize_roundtrip
    ({ mean_values := fun _ => 5, std_values := fun _ => 2 } :
      PredictorState ℚ) "c_rho" (by norm_num) (-3)

end KaroProd
